import Mathlib

set_option maxRecDepth 10000

/-!
Shallow embedding of the data-block management layer of the ouichefs variant
in src/ouichefs-6.5.7/file.c: the block-entry codec, the fragment-aware
reader and writer, the intra-block compactor (apply_contigue), the
defragmentation ioctl, the usage-introspection ioctl and the ioctl
dispatcher (my_ioctl).

Machine integers are modelled as Nat with explicit mod where C overflow
matters (uint32_t entries, the u64 i_blocks - 1 wraparound).  Disk blocks
are byte functions Nat → Nat; the buffer cache is modelled write-through:
every memcpy/memset lands in the disk map immediately, and
mark_buffer_dirty/sync_dirty_buffer (durability only) are no-ops.  Backing
reads (sb_bread) and user copies (copy_from_user/copy_to_user) are modelled
as succeeding; the free-block allocator (bitmap.h is not among the sources)
is a list oracle whose head is the next block get_free_block returns, with
0 / empty meaning exhaustion exactly as the C checks `if (!bno)`.

Every bounded C for loop is embedded as the left fold of its body over
List.range' of the index range; loop bodies carry an explicit broke flag
where the C loop has a break.
-/

/-- Block size in bytes.  OUICHEFS_BLOCK_SIZE lives in the repository's
ouichefs.h, which is not among the source files.  Modelled from the spec:
a Block is a fixed 4096-byte unit of physical storage. -/
def OUICHEFS_BLOCK_SIZE : Nat := 4096

/-- Mask for the 20 block-number bits of an entry.  Modelled from the spec:
block_number is a 20-bit unsigned field (ouichefs.h is absent). -/
def BLOCK_NUMBER_MASK : Nat := 0xFFFFF

/-- Mask for the 12 used-size bits of an entry.  Modelled from the spec:
used_size is a 12-bit unsigned field stored above the block number. -/
def BLOCK_SIZE_MASK : Nat := 0xFFF00000

/-- Absolute file-size cap.  Modelled from the spec: the per-file Index
Block holds 1024 entries of 4096 bytes each (ouichefs.h is absent). -/
def OUICHEFS_MAX_FILESIZE : Nat := OUICHEFS_BLOCK_SIZE * (OUICHEFS_BLOCK_SIZE >>> 2)

/-- Modulus of a C uint32_t. -/
def UINT32_MOD : Nat := 2 ^ 32

/-- Modulus of a C u64 (blkcnt_t arithmetic such as i_blocks - 1). -/
def UINT64_MOD : Nat := 2 ^ 64

def ENOSPC : Int := 28
def ENOTTY : Int := 25

/-- Command codes.  The _IO numbers live in the absent ouichefs.h; modelled
from the spec, which only needs the two recognized commands to be distinct
from each other and from everything else. -/
def OUICHEFS_IOC_GET_INFO : Nat := 0

def OUICHEFS_IOC_GET_DEFRAG : Nat := 1

/-- A bounded C for loop over indices lo, lo+1, ..., lo+n-1 threading a
state: the left fold of the body over the index range. -/
def forRange {σ : Type} (f : σ → Nat → σ) (lo n : Nat) (st : σ) : σ :=
  (List.range' lo n).foldl f st

/-- file.c:232-235: pack a block number and a used size into one uint32
entry; the shift wraps mod 2^32 exactly as the C uint32_t arithmetic. -/
def create_block_entry (block_number block_size : Nat) : Nat :=
  ((block_size <<< 20) % UINT32_MOD) ||| (block_number &&& BLOCK_NUMBER_MASK)

/-- file.c:238-241: the low 20 bits of an entry. -/
def get_block_number (entry : Nat) : Nat := entry &&& BLOCK_NUMBER_MASK

/-- file.c:244-247: the 12 used-size bits of an entry. -/
def get_block_size (entry : Nat) : Nat := (entry &&& BLOCK_SIZE_MASK) >>> 20

/-- The mutable state the file.c functions touch: inode fields, the file's
index block (entry word per logical slot), the disk (block number to byte
function), and the allocator oracle. -/
structure FS where
  i_size : Nat
  i_blocks : Nat
  index : Nat → Nat
  disk : Nat → Nat → Nat
  free_list : List Nat
  nr_free_blocks : Nat

/-- Point update of an index-block slot. -/
def updIdx (f : Nat → Nat) (i v : Nat) : Nat → Nat :=
  fun k => if k = i then v else f k

/-- Replace one block's byte function on the disk. -/
def updBlock (d : Nat → Nat → Nat) (bno : Nat) (blk : Nat → Nat) : Nat → Nat → Nat :=
  fun b => if b = bno then blk else d b

/-- memcpy into a byte function: bytes [dstOff, dstOff+len) come from
src[srcOff..].  All source bytes are read from the pre-call buffer
(memmove semantics, which for the one forward overlapping call in
apply_contigue coincides with a forward byte-by-byte memcpy). -/
def copyRange (dst : Nat → Nat) (dstOff : Nat) (src : Nat → Nat) (srcOff len : Nat) :
    Nat → Nat :=
  if len = 0 then dst
  else fun p => if dstOff ≤ p ∧ p < dstOff + len then src (srcOff + (p - dstOff)) else dst p

/-- memset v over [off, off+len) of a byte function. -/
def setRange (dst : Nat → Nat) (off len v : Nat) : Nat → Nat :=
  if len = 0 then dst
  else fun p => if off ≤ p ∧ p < off + len then v else dst p

/-- memcpy acting directly on the (write-through) disk map. -/
def memcpyDisk (d : Nat → Nat → Nat) (dstBno dstOff : Nat) (src : Nat → Nat)
    (srcOff len : Nat) : Nat → Nat → Nat :=
  if len = 0 then d
  else updBlock d dstBno (copyRange (d dstBno) dstOff src srcOff len)

/-- memset acting directly on the (write-through) disk map. -/
def memsetDisk (d : Nat → Nat → Nat) (bno off len v : Nat) : Nat → Nat → Nat :=
  if len = 0 then d
  else updBlock d bno (setRange (d bno) off len v)

/-- file.c:418-432 clean_block: zero the 4096 bytes of the block an entry
points to (the I/O failure branch is not modelled; reads succeed). -/
def clean_block (d : Nat → Nat → Nat) (block_entry : Nat) : Nat → Nat → Nat :=
  updBlock d (get_block_number block_entry) (fun _ => 0)

/-- get_free_block from the absent bitmap.h, modelled from the spec as an
allocate() oracle: pops the next free block number, 0 / empty meaning
exhaustion (the C result is checked with `if (!bno)` by every caller). -/
def alloc_one (fs : FS) : Option (Nat × FS) :=
  match fs.free_list with
  | [] => none
  | b :: bs =>
      if b = 0 then none
      else some (b, { fs with free_list := bs, nr_free_blocks := fs.nr_free_blocks - 1 })

/-- put_block from the absent bitmap.h, modelled from the spec as
release(): the freed word (the callers pass the raw index entry) returns
to the tail of the oracle list. -/
def put_block (fs : FS) (v : Nat) : FS :=
  { fs with free_list := fs.free_list ++ [v], nr_free_blocks := fs.nr_free_blocks + 1 }

/-- State of the boundary scan shared by reader (file.c:366-381, variables
start and end) and writer (file.c:629-644, variables position_to_copy and
cmpt): the count of bytes of the first maximal nonzero run, where the run
starts (none while no nonzero byte was seen), and whether the loop has
broken out. -/
structure ScanState where
  cmpt : Nat
  position_to_copy : Option Nat
  broke : Bool

/-- One iteration of the boundary scan: a nonzero byte records the run
start on first sight and counts; a zero byte after the run started breaks
the loop. -/
def scanStep (data : Nat → Nat) (st : ScanState) (i : Nat) : ScanState :=
  if st.broke then st
  else if data i ≠ 0 then
    { st with
      position_to_copy := if st.position_to_copy = none then some i else st.position_to_copy,
      cmpt := st.cmpt + 1 }
  else if st.position_to_copy ≠ none then { st with broke := true }
  else st

/-- The boundary scan from the intra-block offset to the end of the block. -/
def scanRun (data : Nat → Nat) (offset : Nat) : ScanState :=
  forRange (scanStep data) offset (OUICHEFS_BLOCK_SIZE - offset) ⟨0, none, false⟩

/-- Result of one read call: return value (bytes delivered, or a negative
errno), the caller's buffer after copy_to_user, the global nb_block_read
counter after the call, and the file position after the call. -/
structure ReadOut where
  ret : Int
  ubuf : Nat → Nat
  nb : Nat
  ppos : Nat

/-- file.c:316-406 ouichefs_read_fragment.  nb_block_read is the global
counter (threaded explicitly); the i_blocks - 1 of the counter check is
u64 arithmetic, wrapping when i_blocks = 0.  The cursor-versus-size check
is commented out in the C source and hence absent here.  ubuf is the
caller's buffer copy_to_user fills from index 0. -/
def ouichefs_read_fragment (fs : FS) (nb_block_read : Nat) (ppos : Nat)
    (ubuf : Nat → Nat) : ReadOut :=
  if nb_block_read ≥ (fs.i_blocks + (UINT64_MOD - 1)) % UINT64_MOD then
    ⟨0, ubuf, 0, ppos⟩
  else
    let iblock := ppos / OUICHEFS_BLOCK_SIZE
    if fs.index iblock = 0 then ⟨0, ubuf, nb_block_read, ppos⟩
    else
      let bno := fs.index iblock
      let data := fs.disk (get_block_number bno)
      let offset := ppos % OUICHEFS_BLOCK_SIZE
      let size := get_block_size bno
      let scanned := scanRun data offset
      let start := if size ≠ 0 then scanned.position_to_copy.getD 0 else offset
      let bytes_to_read := if size ≠ 0 then scanned.cmpt else OUICHEFS_BLOCK_SIZE
      let ubuf1 := copyRange ubuf 0 data start bytes_to_read
      let bytes_read := bytes_to_read
      if bytes_read ≥ size then
        ⟨(bytes_read : Int), ubuf1, nb_block_read + 1,
          ppos + bytes_read + (OUICHEFS_BLOCK_SIZE - bytes_read)⟩
      else
        ⟨(bytes_read : Int), ubuf1, nb_block_read, ppos + bytes_read⟩

/-- Drive ouichefs_read_fragment like a userspace read loop: append each
call's delivered bytes to an output buffer until a call returns 0 (or the
fuel runs out).  Returns the output buffer and its length. -/
def readStream (fs : FS) : Nat → Nat → Nat → (Nat → Nat) → Nat → (Nat → Nat) × Nat
  | 0, _, _, out, outLen => (out, outLen)
  | fuel + 1, nb, ppos, out, outLen =>
      let r := ouichefs_read_fragment fs nb ppos (fun _ => 0)
      if r.ret ≤ 0 then (out, outLen)
      else
        readStream fs fuel r.nb r.ppos (copyRange out outLen r.ubuf 0 r.ret.toNat)
          (outLen + r.ret.toNat)

/-- Read a file from position 0 with a fresh counter until end of stream. -/
def readAll (fs : FS) : (Nat → Nat) × Nat :=
  readStream fs 10 0 0 (fun _ => 0) 0

/-- Result of one write call: return value, file position after the call,
and the whole mutated state (mutations before an error return are kept,
as in the C). -/
structure WriteOut where
  ret : Int
  ppos : Nat
  fs : FS

/-- file.c:646-648: shift index entries right by needed slots, walking j
downward. -/
def shiftEntries (idx : Nat → Nat) (needed : Nat) : List Nat → Nat → Nat
  | [] => idx
  | j :: rest => shiftEntries (updIdx idx (j + needed) (idx j)) needed rest

/-- file.c:649-659: allocate, tag and zero one fresh block per slot i,
walking downward; on exhaustion the mutations so far are kept and the
flag is false. -/
def allocBlocks (fs : FS) : List Nat → Bool × FS
  | [] => (true, fs)
  | i :: rest =>
      match alloc_one fs with
      | none => (false, fs)
      | some (b, fs1) =>
          let entry := create_block_entry b 0
          allocBlocks
            { fs1 with disk := clean_block fs1.disk entry,
                       index := updIdx fs1.index i entry } rest

/-- file.c:719-724 (and the z loop of the defragmentation ioctl): release
the listed index entries in order (put_block receives the raw entry word,
exactly as the C passes index->blocks[i]). -/
def freeTail (fs : FS) : List Nat → FS
  | [] => fs
  | i :: rest =>
      freeTail (put_block { fs with index := updIdx fs.index i 0 } (fs.index i)) rest

/-- file.c:601-612: when the target slot is empty, obtain a block, tag it
with used size 0, zero it and record the entry; otherwise take the
existing entry.  none signals allocator exhaustion (-ENOSPC). -/
def writeTargetAlloc (fs : FS) (iblock : Nat) : Option (Nat × FS) :=
  if fs.index iblock = 0 then
    match alloc_one fs with
    | none => none
    | some (b, fsA) =>
        let entry := create_block_entry b 0
        some (entry, { fsA with disk := clean_block fsA.disk entry,
                                index := updIdx fsA.index iblock entry })
  else some (fs.index iblock, fs)

/-- file.c:645-685: the insertion move.  Shift the entries above iblock
right by needed slots (highest first), allocate needed fresh zeroed blocks
into the freed slots (error keeps the partial state), copy the displaced
run into the first inserted block and grow its entry, zero the vacated
region and shrink the original entry by cmpt (uint32 subtraction that may
wrap). -/
def writeInsertMove (fs1 : FS) (iblock needed bno position_to_copy cmpt : Nat) :
    Except FS (Nat × FS) :=
  let idx2 := shiftEntries fs1.index needed
    ((List.range' (iblock + 1) ((fs1.i_blocks - 2) - iblock)).reverse)
  let fs2 := { fs1 with index := idx2 }
  match allocBlocks fs2 ((List.range' (iblock + 1) needed).reverse) with
  | (false, fs3) => Except.error fs3
  | (true, fs3) =>
      let last0 := fs3.index (iblock + needed)
      let dCopy := memcpyDisk fs3.disk (get_block_number last0) 0
        (fs3.disk (get_block_number bno)) position_to_copy cmpt
      let fs4 := { fs3 with disk := dCopy }
      let last1 := create_block_entry (get_block_number last0) (get_block_size last0 + cmpt)
      let idx5 := updIdx fs4.index (iblock + needed) last1
      let fs5 := { fs4 with index := idx5 }
      let dSet := memsetDisk fs5.disk (get_block_number bno) position_to_copy cmpt 0
      let fs6 := { fs5 with disk := dSet }
      let bno1 := create_block_entry (get_block_number bno)
        ((get_block_size bno + (UINT32_MOD - cmpt)) % UINT32_MOD)
      Except.ok (bno1, { fs6 with index := updIdx fs6.index iblock bno1 })

/-- file.c:686-728: copy the user bytes into the target block, grow its
entry by the bytes written, update i_size and i_blocks, and free trailing
entries if the block count shrank. -/
def writeFinish (fs6 : FS) (bno1 : Nat) (buf : Nat → Nat)
    (iblock offset bytes_to_write pos0 needed : Nat) : WriteOut :=
  let dUser := memcpyDisk fs6.disk (get_block_number bno1) offset buf 0 bytes_to_write
  let fs7 := { fs6 with disk := dUser }
  let bytes_write := bytes_to_write
  let ppos1 := pos0 + bytes_write
  let bno2 := create_block_entry (get_block_number bno1) (get_block_size bno1 + bytes_write)
  let fs8 := { fs7 with index := updIdx fs7.index iblock bno2 }
  let newSize := if ppos1 > fs8.i_size then ppos1 else fs8.i_size
  let nr_blocks_old := fs8.i_blocks
  let newBlocks :=
    if fs8.i_blocks = 1 ∨ fs8.i_blocks = 0 then newSize / OUICHEFS_BLOCK_SIZE + 2
    else fs8.i_blocks + needed
  let fs9 := { fs8 with i_size := newSize, i_blocks := newBlocks }
  let fs10 :=
    if nr_blocks_old > newBlocks then
      freeTail fs9 (List.range' (newBlocks - 1) ((nr_blocks_old - 1) - (newBlocks - 1)))
    else fs9
  ⟨(bytes_write : Int), ppos1, fs10⟩

/-- file.c:596-728: the body of the write after the global pre-checks,
once the target entry bno and the state fs1 are resolved. -/
def writeBody (fs1 : FS) (bno : Nat) (buf : Nat → Nat) (len pos0 iblock : Nat) : WriteOut :=
  let offset := pos0 % OUICHEFS_BLOCK_SIZE
  let remaining := OUICHEFS_BLOCK_SIZE - offset
  let bytes_to_write := min len remaining
  let needed0 := (len + offset) / OUICHEFS_BLOCK_SIZE
  if needed0 + fs1.i_blocks > (OUICHEFS_BLOCK_SIZE >>> 2) - 1 then
    ⟨-ENOSPC, pos0, fs1⟩
  else
    let scanned := scanRun (fs1.disk (get_block_number bno)) offset
    let number_of_blocks_needed :=
      needed0 + (if scanned.position_to_copy.isSome then 1 else 0)
    let inserted : Except FS (Nat × FS) :=
      match scanned.position_to_copy with
      | none => Except.ok (bno, fs1)
      | some position_to_copy =>
          writeInsertMove fs1 iblock number_of_blocks_needed bno position_to_copy scanned.cmpt
    match inserted with
    | Except.error fs3 => ⟨-ENOSPC, pos0, fs3⟩
    | Except.ok (bno1, fs6) =>
        writeFinish fs6 bno1 buf iblock offset bytes_to_write pos0 number_of_blocks_needed

/-- file.c:565-729 ouichefs_write_fragment.  buf is the user buffer
(copy_from_user succeeds), len its length, ppos the cursor, append the
O_APPEND flag.  Arithmetic notes: the first size check is size_t, the
nr_allocs estimate casts len to unsigned int and compares against the u64
i_blocks - 1 (wrapping at i_blocks = 0). -/
def ouichefs_write_fragment (fs : FS) (buf : Nat → Nat) (len ppos : Nat)
    (append : Bool) : WriteOut :=
  if ppos + len > OUICHEFS_MAX_FILESIZE then ⟨-ENOSPC, ppos, fs⟩ else
  let nr_allocs0 := (max (ppos + len % UINT32_MOD) fs.i_size) / OUICHEFS_BLOCK_SIZE
  let ib1 := (fs.i_blocks + (UINT64_MOD - 1)) % UINT64_MOD
  let nr_allocs := if nr_allocs0 > ib1 then nr_allocs0 - ib1 else 0
  if nr_allocs > fs.nr_free_blocks then ⟨-ENOSPC, ppos, fs⟩ else
  let pos0 := if append then fs.i_size else ppos
  let iblock := pos0 / OUICHEFS_BLOCK_SIZE
  match writeTargetAlloc fs iblock with
  | none => ⟨-ENOSPC, pos0, fs⟩
  | some (bno, fs1) => writeBody fs1 bno buf len pos0 iblock

/-- Loop state of apply_contigue (file.c:815-860): the block bytes plus
the loff_t registers empty, full, copy_len and the active flag. -/
structure ContigueState where
  data : Nat → Nat
  empty : Int
  full : Int
  copy_len : Int
  active : Bool

/-- One iteration of the apply_contigue scan (file.c:830-850). -/
def contigueStep (st : ContigueState) (block_pos : Nat) : ContigueState :=
  if st.data block_pos ≠ 0 then
    if st.active then { st with copy_len := (block_pos : Int) }
    else { st with full := (block_pos : Int) }
  else
    if st.active ∧ st.copy_len ≠ 0 then
      let len := (st.copy_len - st.empty).toNat
      let d1 := copyRange st.data (st.full + 1).toNat st.data (st.empty + 1).toNat len
      let d2 := setRange d1 (st.empty + 1).toNat len 0
      { data := d2, empty := st.copy_len + 1,
        full := st.full + (st.copy_len - (st.empty + 1)), copy_len := 0, active := false }
    else { st with active := true, empty := (block_pos : Int) }

/-- file.c:815-860 apply_contigue: in-block compaction of the block an
entry points to; a no-op when the decoded used size is 0.  Returns the
disk after the pass (the C also returns an int status, 0 here since block
reads are modelled as succeeding). -/
def apply_contigue (current_block : Nat) (d : Nat → Nat → Nat) : Nat → Nat → Nat :=
  if get_block_size current_block = 0 then d
  else
    let bno := get_block_number current_block
    let st0 : ContigueState := ⟨d bno, -1, 0, 0, false⟩
    let st := forRange contigueStep 0 OUICHEFS_BLOCK_SIZE st0
    let final :=
      if st.active ∧ st.empty ≠ (OUICHEFS_BLOCK_SIZE : Int) - 1 then
        let len := (st.copy_len - st.empty).toNat
        setRange (copyRange st.data st.full.toNat st.data (st.empty + 1).toNat len)
          (st.empty + 1).toNat len 0
      else st.data
    updBlock d bno final

/-- The struct ouichefs_ioctl_info of the info ioctl: the per-block array
is modelled as the list of (block_number, effective_size) pairs in the
order the C fills its fixed array. -/
structure ouichefs_ioctl_info where
  used_blocks : Nat
  partially_filled_blocks : Nat
  internal_fragmentation : Nat
  blocks : List (Nat × Nat)

/-- One iteration of the info scan (file.c:774-791). -/
def infoStep (idx : Nat → Nat) (info : ouichefs_ioctl_info) (i : Nat) :
    ouichefs_ioctl_info :=
  let entry := idx i
  if entry = 0 then info
  else
    let block_number := get_block_number entry
    let size := get_block_size entry
    { used_blocks := info.used_blocks + 1,
      partially_filled_blocks := info.partially_filled_blocks +
        (if size ≠ 0 ∧ size < OUICHEFS_BLOCK_SIZE then 1 else 0),
      internal_fragmentation := info.internal_fragmentation +
        (if size ≠ 0 ∧ size < OUICHEFS_BLOCK_SIZE then OUICHEFS_BLOCK_SIZE - size else 0),
      blocks := info.blocks ++ [(block_number, size)] }

/-- file.c:745-800 ouichefs_ioctl: reject any command other than
OUICHEFS_IOC_GET_INFO with -ENOTTY, otherwise scan the index block
read-only and report the usage counters (kmalloc and the user copy are
modelled as succeeding; the function mutates nothing). -/
def ouichefs_ioctl (fs : FS) (cmd : Nat) : Except Int ouichefs_ioctl_info :=
  if cmd ≠ OUICHEFS_IOC_GET_INFO then Except.error (-ENOTTY)
  else Except.ok (forRange (infoStep fs.index) 0 (OUICHEFS_BLOCK_SIZE >>> 2) ⟨0, 0, 0, []⟩)

/-- One iteration of the first defragmentation pass (file.c:884-891):
apply_contigue on the allocated block, stopping at the first zero entry
(broke flag). -/
def defragStep1 (st : FS × Bool) (i : Nat) : FS × Bool :=
  if st.2 then st
  else
    let current_block := st.1.index i
    if current_block = 0 then (st.1, true)
    else ({ st.1 with disk := apply_contigue current_block st.1.disk }, false)

/-- Loop state of the inner j loop of the second defragmentation pass. -/
structure Pass2State where
  fs : FS
  size : Nat
  current_block : Nat

/-- One iteration of the inner j loop (file.c:918-949): pull
min(size_left, size_from) bytes from block j into the tail of block i's
payload, zero the copied-from region, grow i's entry; if j still has
bytes left, re-run apply_contigue on it and rewrite its entry.  The C
declares a fresh `from_block` initialized from itself at file.c:941 (an
uninitialized read); that read is modelled as the value 0. -/
def pass2Inner (i : Nat) (size_left : Nat) (st : Pass2State) (j : Nat) : Pass2State :=
  let from_block := st.fs.index j
  let size_from := get_block_size from_block
  let bytes_to_copy := min size_left size_from
  let src := st.fs.disk (get_block_number from_block)
  let dstBno := get_block_number st.current_block
  let fsA := { st.fs with disk := memcpyDisk st.fs.disk dstBno st.size src 0 bytes_to_copy }
  let dSet := memsetDisk fsA.disk (get_block_number from_block) 0 bytes_to_copy 0
  let fsB := { fsA with disk := dSet }
  let size1 := st.size + bytes_to_copy
  let cb1 := create_block_entry (get_block_number st.current_block) size1
  let fsC := { fsB with index := updIdx fsB.index i cb1 }
  if bytes_to_copy ≠ size_from then
    let fsD := { fsC with disk := apply_contigue from_block fsC.disk }
    let size_from1 := size_from - bytes_to_copy
    let fb1 := create_block_entry (get_block_number 0) size_from1
    { fs := { fsD with index := updIdx fsD.index j fb1 }, size := size1,
      current_block := cb1 }
  else { fs := fsC, size := size1, current_block := cb1 }

/-- One iteration of the outer i loop of the second defragmentation pass
(file.c:896-963): stop at the first zero entry, skip size-0 blocks,
otherwise run the inner j loop; once the running total reaches i_size,
release the entries beyond j and set i_blocks to j + 1 where j is the
inner loop variable's final value. -/
def defragStep2 (st : FS × Nat × Bool) (i : Nat) : FS × Nat × Bool :=
  if st.2.2 then st
  else
    let fs := st.1
    let copied_so_far := st.2.1
    let current_block := fs.index i
    if current_block = 0 then (fs, copied_so_far, true)
    else
      let size := get_block_size current_block
      if size = 0 then st
      else
        let size_left := OUICHEFS_BLOCK_SIZE - size
        let inner := forRange (pass2Inner i size_left) (i + 1)
          ((OUICHEFS_BLOCK_SIZE >>> 2) - (i + 1)) ⟨fs, size, current_block⟩
        let j := max (i + 1) (OUICHEFS_BLOCK_SIZE >>> 2)
        let copied1 := copied_so_far + inner.size
        let fs1 :=
          if copied1 ≥ inner.fs.i_size then
            let fs2 := freeTail inner.fs
              (List.range' (j + 1) ((inner.fs.i_blocks - 1) - (j + 1)))
            { fs2 with i_blocks := j + 1 }
          else inner.fs
        (fs1, copied1, false)

/-- file.c:867-968 ouichefs_ioctl_defragmentation: the two passes, then
return 0 (index-block reads are modelled as succeeding). -/
def ouichefs_ioctl_defragmentation (fs : FS) : Int × FS :=
  let p1 := forRange defragStep1 0 (OUICHEFS_BLOCK_SIZE >>> 2) (fs, false)
  let p2 := forRange defragStep2 0 (OUICHEFS_BLOCK_SIZE >>> 2) (p1.1, 0, false)
  (0, p2.1)

/-- file.c:970-986 my_ioctl: dispatch on the command, calling the info
query or the defragmentation handler, whose return statuses are both
discarded; every path returns 0. -/
def my_ioctl (fs : FS) (cmd : Nat) : Int × FS :=
  if cmd = OUICHEFS_IOC_GET_INFO then
    let _info := ouichefs_ioctl fs cmd
    (0, fs)
  else if cmd = OUICHEFS_IOC_GET_DEFRAG then
    let r := ouichefs_ioctl_defragmentation fs
    (0, r.2)
  else (0, fs)

/-- A fresh empty file (after open with O_TRUNC, file.c:196-226: i_size
and i_blocks both 0, no entries), with three free blocks available. -/
def emptyFS : FS :=
  ⟨0, 0, fun _ => 0, fun _ _ => 0, [100, 101, 102], 10⟩

/-- A user buffer of n bytes of the letter a. -/
def bufA (n : Nat) : Nat → Nat := fun i => if i < n then 97 else 0

/-- The user buffer holding the 5 bytes of the word suite. -/
def bufSuite : Nat → Nat := fun i => [115, 117, 105, 116, 101].getD i 0

/-- A block holding n letters a followed by zero padding. -/
def ablk (n : Nat) : Nat → Nat := fun p => if p < n then 97 else 0

/-- The target block of the insertion scenario after the insertion write:
aaa, then suite, then zero padding. -/
def blkAS : Nat → Nat := fun p =>
  if p < 3 then 97 else if p < 8 then bufSuite (p - 3) else 0

/-- The content the insertion property expects when reading the file from
offset 0: aaa, then suite, then the remaining 4996 letters a. -/
def expectedC1 : Nat → Nat := fun k =>
  if k < 3 then 97 else if k < 8 then bufSuite (k - 3) else 97

/-- The state after write(bufA 4999, 4999) at position 0 on the empty
file: block 100 holds 4096 letters a, its entry is 100 (used size 4096
wrapped to 0 by the 12-bit field). -/
def fsC1aE : FS :=
  ⟨4096, 3, fun k => if k = 0 then 100 else 0,
    fun b => if b = 100 then ablk 4096 else (fun _ => 0), [101, 102], 9⟩

/-- The state after the follow-up write(bufA 903, 903) at position 4096:
block 101 holds the remaining 903 letters a, entry 946864229 encodes
(block 101, used size 903). -/
def fsC1bE : FS :=
  ⟨4999, 3, fun k => if k = 0 then 100 else if k = 1 then 946864229 else 0,
    fun b => if b = 100 then ablk 4096 else if b = 101 then ablk 903 else (fun _ => 0),
    [102], 8⟩

/-- The state after the insertion write(suite, 5) at position 3: entry 0 is
(block 100, used size 8) = 8388708 with content aaasuite, entry 1 is the
fresh block (102, used size 4093) = 4291821670 holding the displaced
letters, entry 2 is the shifted (block 101, used size 903) = 946864229. -/
def fsC1cE : FS :=
  ⟨4999, 4,
    fun k => if k = 0 then 8388708 else if k = 1 then 4291821670 else
      if k = 2 then 946864229 else 0,
    fun b => if b = 100 then blkAS else if b = 101 then ablk 903 else
      if b = 102 then ablk 4093 else (fun _ => 0),
    [], 7⟩

/-- The user buffer (and resulting block content) of the interior-zero
scenario: the four bytes 97 0 98 99. -/
def bufC2 : Nat → Nat := fun i => [97, 0, 98, 99].getD i 0

/-- The single-block file after write(bufC2, 4) at position 0 on the empty
file: entry 4194404 encodes (block 100, used size 4). -/
def fsC2E : FS :=
  ⟨4, 2, fun k => if k = 0 then 4194404 else 0,
    fun b => if b = 100 then bufC2 else (fun _ => 0), [101, 102], 9⟩

/-- Block 100 of the interior-zero file after the defragmentation ioctl:
97, 98 and only zeros after them — the byte 99 is gone. -/
def blkC2d : Nat → Nat := fun p => if p = 0 then 97 else if p = 1 then 98 else 0

/-- The interior-zero file after the defragmentation ioctl: same entry,
same logical size, i_blocks inflated to 1025, and block 100 rewritten to
blkC2d. -/
def fsC2dE : FS :=
  ⟨4, 1025, fun k => if k = 0 then 4194404 else 0,
    fun b => if b = 100 then blkC2d else (fun _ => 0), [101, 102], 9⟩

/-- A file whose index entry 0 is the raw block number 7 (decoded used
size 0, as the page-cache write path of file.c:27-73 and file.c:98-127
stores entries) with logical size 5. -/
def exRead : FS :=
  ⟨5, 2, fun k => if k = 0 then 7 else 0, fun _ _ => 0, [], 0⟩

/-- The global pre-checks of ouichefs_write_fragment (file.c:580-589)
passing: the size cap and the free-space estimate admit the write. -/
def writePrecheckPass (fs : FS) (len ppos : Nat) : Prop :=
  ¬ ppos + len > OUICHEFS_MAX_FILESIZE ∧
  ¬ (let nr_allocs0 := (max (ppos + len % UINT32_MOD) fs.i_size) / OUICHEFS_BLOCK_SIZE
     let ib1 := (fs.i_blocks + (UINT64_MOD - 1)) % UINT64_MOD
     if nr_allocs0 > ib1 then nr_allocs0 - ib1 else 0) > fs.nr_free_blocks

/-- Index block of 1019 allocated entries with a write landing on the
unallocated slot 1019, used by the capacity-boundary scenarios. -/
def fsCap : FS :=
  ⟨1019 * OUICHEFS_BLOCK_SIZE, 1020,
    fun k => if k < 1019 then create_block_entry (100 + k) 0 else 0,
    fun _ _ => 0, [999], 5⟩

/-- The per-block listing the info query is specified against: one
(block_number, used_size) pair for every allocated entry, in index
order. -/
def perBlock (fs : FS) : List (Nat × Nat) :=
  ((List.range' 0 (OUICHEFS_BLOCK_SIZE >>> 2)).filter (fun i => fs.index i != 0)).map
    (fun i => (get_block_number (fs.index i), get_block_size (fs.index i)))

/-- The state after the target-slot allocation of the first write on the empty file: slot 0 holds the fresh entry 100, block 100 zeroed. -/
def fsW1 : FS :=
  ⟨0, 0, updIdx (fun _ => 0) 0 100, updBlock (fun _ _ => 0) 100 (fun _ => 0), [101, 102], 9⟩

/-- Raw form of the state after write(bufA 4999, 4999) at position 0 on the empty file, exactly as the write path builds it. -/
def fsC1aX : FS :=
  ⟨4096, 3, updIdx (updIdx (fun _ => 0) 0 100) 0 100,
    updBlock (updBlock (fun _ _ => 0) 100 (fun _ => 0)) 100
      (copyRange (fun _ => 0) 0 (bufA 4999) 0 4096), [101, 102], 9⟩

/-- The state after the target-slot allocation of the second write: slot 1 holds the fresh entry 101, block 101 zeroed. -/
def fsW2 : FS :=
  ⟨4096, 3, updIdx fsC1aE.index 1 101, updBlock fsC1aE.disk 101 (fun _ => 0), [102], 8⟩

/-- Raw form of the state after the follow-up write(bufA 903, 903) at position 4096. -/
def fsC1bX : FS :=
  ⟨4999, 3, updIdx (updIdx fsC1aE.index 1 101) 1 946864229,
    updBlock (updBlock fsC1aE.disk 101 (fun _ => 0)) 101
      (copyRange (fun _ => 0) 0 (bufA 903) 0 903), [102], 8⟩

/-- Index block after the insertion move of the suite write: entry 1 shifted to 2, the fresh block 102 inserted at 1 and grown to 4093 bytes, the original entry shrunk (uint32 wrap puts 3 in its size bits). -/
def idxW3 : Nat → Nat :=
  updIdx (updIdx (updIdx (updIdx fsC1bE.index 2 946864229) 1 102) 1 4291821670) 0 3145828

/-- Disk after the insertion move of the suite write: block 102 zeroed then filled with the displaced run, the vacated region of block 100 zeroed. -/
def dskW3 : Nat → Nat → Nat :=
  updBlock (updBlock (updBlock fsC1bE.disk 102 (fun _ => 0)) 102
    (copyRange (fun _ => 0) 0 (ablk 4096) 3 4093)) 100
    (setRange (ablk 4096) 3 4093 0)

/-- Raw form of the state after the insertion write(suite, 5) at position 3. -/
def fsC1cX : FS :=
  ⟨4999, 4, updIdx idxW3 0 8388708,
    updBlock dskW3 100 (copyRange (setRange (ablk 4096) 3 4093 0) 3 bufSuite 0 5), [], 7⟩

/-- Bytes the first read call on fsC1cE delivers: the 8-byte run of block 100. -/
def ubuf1C1 : Nat → Nat := copyRange (fun _ => 0) 0 blkAS 0 8

/-- Bytes the second read call on fsC1cE delivers: the 4093-byte run of block 102. -/
def ubuf2C1 : Nat → Nat := copyRange (fun _ => 0) 0 (ablk 4093) 0 4093

/-- Bytes the third read call on fsC1cE delivers: the 903-byte run of block 101. -/
def ubuf3C1 : Nat → Nat := copyRange (fun _ => 0) 0 (ablk 903) 0 903

/-- The stream a userspace read loop assembles from fsC1cE: 8 + 4093 + 903 = 5004 bytes. -/
def outC1 : Nat → Nat :=
  copyRange (copyRange (copyRange (fun _ => 0) 0 ubuf1C1 0 8) 8 ubuf2C1 0 4093)
    4101 ubuf3C1 0 903

/-- Raw form of the single-block file after write(bufC2, 4) at position 0 on the empty file. -/
def fsC2X : FS :=
  ⟨4, 2, updIdx (updIdx (fun _ => 0) 0 100) 0 4194404,
    updBlock (updBlock (fun _ _ => 0) 100 (fun _ => 0)) 100
      (copyRange (fun _ => 0) 0 bufC2 0 4), [101, 102], 9⟩

/-- Block 100 of the interior-zero file after the apply_contigue scan: the flush at position 4 copies bytes 2-3 over positions 1-2 and zeroes positions 2-3, leaving 97 98 0 0 — the byte 99 is destroyed. -/
def d2C2 : Nat → Nat := setRange (copyRange bufC2 1 bufC2 2 2) 2 2 0

/-- The interior-zero file after the first defragmentation pass: block 100 rewritten to d2C2, everything else untouched. -/
def fsP1 : FS := ⟨4, 2, fsC2E.index, updBlock fsC2E.disk 100 d2C2, [101, 102], 9⟩

/-- The interior-zero file after the second defragmentation pass: same as fsP1 but with i_blocks set to 1024 + 1. -/
def fsP2 : FS := ⟨4, 1025, fsC2E.index, updBlock fsC2E.disk 100 d2C2, [101, 102], 9⟩

/-- The stream a userspace read loop assembles from fsC2E before defragmentation: the 4 bytes 97 98 99 99. -/
def outB2 : Nat → Nat :=
  copyRange (copyRange (copyRange (fun _ => 0) 0 (copyRange (fun _ => 0) 0 bufC2 0 1) 0 1)
    1 (copyRange (fun _ => 0) 0 bufC2 2 2) 0 2) 3 (copyRange (fun _ => 0) 0 bufC2 3 1) 0 1

/-- The stream a userspace read loop assembles from fsC2dE after defragmentation: only the 2 bytes 97 98. -/
def outA2 : Nat → Nat :=
  copyRange (fun _ => 0) 0 (copyRange (fun _ => 0) 0 blkC2d 0 2) 0 2


/-! Pointwise evaluation lemmas for the byte-function primitives. -/

theorem updIdx_self (f : Nat → Nat) (i v : Nat) : updIdx f i v i = v := by
  simp [updIdx]

theorem updIdx_ne (f : Nat → Nat) {i k : Nat} (v : Nat) (h : k ≠ i) :
    updIdx f i v k = f k := by
  simp [updIdx, h]

theorem updIdx_idem (f : Nat → Nat) (i v w : Nat) :
    updIdx (updIdx f i v) i w = updIdx f i w := by
  funext k
  by_cases h : k = i <;> simp [updIdx, h]

theorem updBlock_self (d : Nat → Nat → Nat) (bno : Nat) (blk : Nat → Nat) :
    updBlock d bno blk bno = blk := by
  simp [updBlock]

theorem updBlock_ne (d : Nat → Nat → Nat) {bno b : Nat} (blk : Nat → Nat) (h : b ≠ bno) :
    updBlock d bno blk b = d b := by
  simp [updBlock, h]

theorem updBlock_idem (d : Nat → Nat → Nat) (bno : Nat) (b1 b2 : Nat → Nat) :
    updBlock (updBlock d bno b1) bno b2 = updBlock d bno b2 := by
  funext b p
  by_cases h : b = bno <;> simp [updBlock, h]

theorem copyRange_in (dst : Nat → Nat) (dstOff : Nat) (src : Nat → Nat)
    (srcOff len p : Nat) (h1 : dstOff ≤ p) (h2 : p < dstOff + len) :
    copyRange dst dstOff src srcOff len p = src (srcOff + (p - dstOff)) := by
  have hlen : ¬ len = 0 := by omega
  simp [copyRange, hlen, h1, h2]

theorem copyRange_out (dst : Nat → Nat) (dstOff : Nat) (src : Nat → Nat)
    (srcOff len p : Nat) (h : p < dstOff ∨ dstOff + len ≤ p) :
    copyRange dst dstOff src srcOff len p = dst p := by
  by_cases hlen : len = 0
  · simp [copyRange, hlen]
  · have : ¬ (dstOff ≤ p ∧ p < dstOff + len) := by omega
    simp [copyRange, hlen, this]

theorem setRange_in (dst : Nat → Nat) (off len v p : Nat)
    (h1 : off ≤ p) (h2 : p < off + len) : setRange dst off len v p = v := by
  have hlen : ¬ len = 0 := by omega
  simp [setRange, hlen, h1, h2]

theorem setRange_out (dst : Nat → Nat) (off len v p : Nat)
    (h : p < off ∨ off + len ≤ p) : setRange dst off len v p = dst p := by
  by_cases hlen : len = 0
  · simp [setRange, hlen]
  · have : ¬ (off ≤ p ∧ p < off + len) := by omega
    simp [setRange, hlen, this]

/-! Codec lemmas. -/

theorem create_block_entry_eq (b s : Nat) :
    create_block_entry b s = 2 ^ 20 * (s % 2 ^ 12) + b % 2 ^ 20 := by
  unfold create_block_entry UINT32_MOD BLOCK_NUMBER_MASK
  have h2 : (0xFFFFF : Nat) = 2 ^ 20 - 1 := by norm_num
  have h3 : (2 : Nat) ^ 32 = 2 ^ 12 * 2 ^ 20 := by norm_num
  have h4 : b % 2 ^ 20 < 2 ^ 20 := Nat.mod_lt _ (by norm_num)
  rw [Nat.shiftLeft_eq, h2, Nat.and_pow_two_sub_one_eq_mod, h3, Nat.mul_mod_mul_right,
    Nat.mul_comm (s % 2 ^ 12) (2 ^ 20)]
  exact (Nat.mul_add_lt_is_or h4 _).symm

theorem get_block_number_create (b s : Nat) :
    get_block_number (create_block_entry b s) = b % 2 ^ 20 := by
  rw [create_block_entry_eq]
  unfold get_block_number BLOCK_NUMBER_MASK
  have h2 : (0xFFFFF : Nat) = 2 ^ 20 - 1 := by norm_num
  rw [h2, Nat.and_pow_two_sub_one_eq_mod]
  omega

theorem get_block_size_eq (e : Nat) : get_block_size e = e / 2 ^ 20 % 2 ^ 12 := by
  unfold get_block_size BLOCK_SIZE_MASK
  have hm : (0xFFF00000 : Nat) = (2 ^ 12 - 1) <<< 20 := by norm_num [Nat.shiftLeft_eq]
  have hd : e / 2 ^ 20 = e >>> 20 := (Nat.shiftRight_eq_div_pow e 20).symm
  rw [hm, hd]
  apply Nat.eq_of_testBit_eq
  intro i
  simp only [Nat.testBit_shiftRight, Nat.testBit_and, Nat.testBit_shiftLeft,
    Nat.testBit_two_pow_sub_one, Nat.testBit_mod_two_pow, Nat.add_sub_cancel_left]
  have : (20 : Nat) ≤ 20 + i := Nat.le_add_right _ _
  simp [this, Bool.and_comm]

theorem get_block_size_create (b s : Nat) :
    get_block_size (create_block_entry b s) = s % 2 ^ 12 := by
  rw [get_block_size_eq, create_block_entry_eq]
  omega

theorem get_block_number_lt (e : Nat) : get_block_number e < 2 ^ 20 := by
  have h := Nat.and_le_right (n := e) (m := 0xFFFFF)
  unfold get_block_number BLOCK_NUMBER_MASK
  omega

theorem get_block_size_lt (e : Nat) : get_block_size e < 2 ^ 12 := by
  rw [get_block_size_eq]
  exact Nat.mod_lt _ (by norm_num)

/-! Characterization of the boundary scan. -/

theorem scanStep_broke (data : Nat → Nat) (st : ScanState) (h : st.broke = true)
    (L : List Nat) : L.foldl (scanStep data) st = st := by
  induction L with
  | nil => rfl
  | cons x xs ih => simp [List.foldl, scanStep, h, ih]

theorem scan_zeros (data : Nat → Nat) (n : Nat) : ∀ (lo c : Nat),
    (∀ i, lo ≤ i → i < lo + n → data i = 0) →
    (List.range' lo n).foldl (scanStep data) ⟨c, none, false⟩ = ⟨c, none, false⟩ := by
  induction n with
  | zero => intro lo c _; rfl
  | succ n ih =>
      intro lo c hz
      rw [List.range'_succ, List.foldl_cons]
      have h0 : data lo = 0 := hz lo le_rfl (by omega)
      have hs : scanStep data ⟨c, none, false⟩ lo = ⟨c, none, false⟩ := by
        simp [scanStep, h0]
      rw [hs]
      exact ih (lo + 1) c (fun i h1 h2 => hz i (by omega) (by omega))

theorem scan_run_some (data : Nat → Nat) (n : Nat) : ∀ (lo c s : Nat),
    (∀ i, lo ≤ i → i < lo + n → data i ≠ 0) →
    (List.range' lo n).foldl (scanStep data) ⟨c, some s, false⟩ = ⟨c + n, some s, false⟩ := by
  induction n with
  | zero => intro lo c s _; rfl
  | succ n ih =>
      intro lo c s hnz
      rw [List.range'_succ, List.foldl_cons]
      have h0 : data lo ≠ 0 := hnz lo le_rfl (by omega)
      have hs : scanStep data ⟨c, some s, false⟩ lo = ⟨c + 1, some s, false⟩ := by
        simp [scanStep, h0]
      rw [hs, ih (lo + 1) (c + 1) s (fun i h1 h2 => hnz i (by omega) (by omega))]
      congr 1
      omega

/-- The boundary scan over a block that is zero from the offset through
position s - 1, nonzero on [s, e) and zero at e (when e is inside the
block): the run has e - s bytes, starts at s, and the loop broke exactly
when e is inside the block. -/
theorem scanRun_eq (data : Nat → Nat) (off s e : Nat) (h1 : off ≤ s) (h2 : s < e)
    (h3 : e ≤ OUICHEFS_BLOCK_SIZE)
    (hz : ∀ i, off ≤ i → i < s → data i = 0)
    (hnz : ∀ i, s ≤ i → i < e → data i ≠ 0)
    (hze : e < OUICHEFS_BLOCK_SIZE → data e = 0) :
    scanRun data off = ⟨e - s, some s, decide (e < OUICHEFS_BLOCK_SIZE)⟩ := by
  unfold scanRun forRange
  unfold OUICHEFS_BLOCK_SIZE at h3 hze ⊢
  have hsplit : List.range' off (4096 - off) =
      List.range' off (s - off) ++ (List.range' s (e - s) ++ List.range' e (4096 - e)) := by
    rw [show List.range' s (e - s) ++ List.range' e (4096 - e) =
          List.range' s ((4096 - e) + (e - s)) by
        have := List.range'_append_1 s (e - s) (4096 - e)
        rw [show s + (e - s) = e by omega] at this
        exact this]
    have := List.range'_append_1 off (s - off) ((4096 - e) + (e - s))
    rw [show off + (s - off) = s by omega] at this
    rw [this]
    congr 1
    omega
  rw [hsplit, List.foldl_append]
  rw [scan_zeros data (s - off) off 0 (fun i ha hb => hz i ha (by omega))]
  have hrun : List.range' s (e - s) = s :: List.range' (s + 1) (e - s - 1) := by
    rw [show e - s = (e - s - 1) + 1 by omega, List.range'_succ]
    simp
  rw [List.foldl_append, hrun, List.foldl_cons]
  have hstart : scanStep data ⟨0, none, false⟩ s = ⟨1, some s, false⟩ := by
    have h0 : data s ≠ 0 := hnz s le_rfl h2
    simp [scanStep, h0]
  rw [hstart, scan_run_some data (e - s - 1) (s + 1) 1 s
    (fun i ha hb => hnz i (by omega) (by omega))]
  rw [show 1 + (e - s - 1) = e - s by omega]
  by_cases he : e < 4096
  · have htail : List.range' e (4096 - e) = e :: List.range' (e + 1) (4096 - e - 1) := by
      rw [show 4096 - e = (4096 - e - 1) + 1 by omega, List.range'_succ]
      simp
    rw [htail, List.foldl_cons]
    have hbreak : scanStep data ⟨e - s, some s, false⟩ e = ⟨e - s, some s, true⟩ := by
      have h0 : data e = 0 := hze he
      simp [scanStep, h0]
    rw [hbreak, scanStep_broke data _ rfl]
    simp [he]
  · have he4 : e = 4096 := by omega
    subst he4
    simp

/-- The boundary scan over a block that is zero from the offset to the end
of the block finds nothing. -/
theorem scanRun_zeros (data : Nat → Nat) (off : Nat)
    (hz : ∀ i, off ≤ i → i < OUICHEFS_BLOCK_SIZE → data i = 0) :
    scanRun data off = ⟨0, none, false⟩ := by
  unfold scanRun forRange
  unfold OUICHEFS_BLOCK_SIZE at hz ⊢
  exact scan_zeros data (4096 - off) off 0 (fun i ha hb => hz i ha (by omega))

/-- C3: Codec round-trip.  For every block_number in [0, 2^20) and every
used_size in [0, 4095], decoding the encoded entry returns exactly the
original pair: get_block_number (create_block_entry b s) = b and
get_block_size (create_block_entry b s) = s. -/
theorem codec_roundtrip (b s : Nat) (hb : b < 2 ^ 20) (hs : s ≤ 4095) :
    get_block_number (create_block_entry b s) = b ∧
    get_block_size (create_block_entry b s) = s := by
  constructor
  · rw [get_block_number_create, Nat.mod_eq_of_lt hb]
  · rw [get_block_size_create, Nat.mod_eq_of_lt (by omega)]

/-- Witness for codec_roundtrip at block_number 12345, used_size 4095. -/
theorem codec_roundtrip_witness :
    12345 < 2 ^ 20 ∧ (4095 : Nat) ≤ 4095 ∧
    (get_block_number (create_block_entry 12345 4095) = 12345 ∧
     get_block_size (create_block_entry 12345 4095) = 4095) :=
  ⟨by norm_num, le_rfl, codec_roundtrip 12345 4095 (by norm_num) le_rfl⟩

/-- C4: Codec out-of-range truncation.  For every 32-bit block_number b
and used_size s, encoding then decoding silently truncates by the bit
layout: the decoded block number is b mod 2^20 and the decoded size is
s mod 2^12; the decoded block number does not depend on s and the decoded
size does not depend on b, so an out-of-range value in one field never
corrupts the other. -/
theorem codec_truncation (b s : Nat) (_hb : b < 2 ^ 32) (_hs : s < 2 ^ 32) :
    get_block_number (create_block_entry b s) = b % 2 ^ 20 ∧
    get_block_size (create_block_entry b s) = s % 2 ^ 12 := by
  exact ⟨get_block_number_create b s, get_block_size_create b s⟩

/-- Witness for codec_truncation at b = 2^20 + 7 and s = 5000, both out of
the contracted ranges. -/
theorem codec_truncation_witness :
    2 ^ 20 + 7 < 2 ^ 32 ∧ 5000 < 2 ^ 32 ∧
    (get_block_number (create_block_entry (2 ^ 20 + 7) 5000) = (2 ^ 20 + 7) % 2 ^ 20 ∧
     get_block_size (create_block_entry (2 ^ 20 + 7) 5000) = 5000 % 2 ^ 12) :=
  ⟨by norm_num, by norm_num,
    codec_truncation (2 ^ 20 + 7) 5000 (by norm_num) (by norm_num)⟩

/-- C5 counterexample: a read with the cursor at the logical file size
(5 ≥ exRead.i_size) still delivers 4096 bytes and returns 4096, not zero:
the cursor-versus-size end-of-stream check is commented out in the code,
and a block whose decoded used size is 0 delivers a whole block regardless
of the cursor. -/
theorem read_eof_counterexample :
    exRead.i_size ≤ 5 ∧
    (ouichefs_read_fragment exRead 0 5 (fun _ => 0)).ret = 4096 := by
  constructor
  · decide
  · rfl

/-- C5 (amended): the reader signals end of stream (zero bytes delivered,
not an error, and the caller's buffer untouched) when the global
blocks-consumed counter has reached i_blocks - 1 (u64 arithmetic) or when
the index entry the cursor resolves to is unallocated; the cursor being at
or past the logical file size is not what triggers it. -/
theorem read_end_of_stream (fs : FS) (nb ppos : Nat) (ubuf : Nat → Nat)
    (h : nb ≥ (fs.i_blocks + (UINT64_MOD - 1)) % UINT64_MOD ∨
         fs.index (ppos / OUICHEFS_BLOCK_SIZE) = 0) :
    (ouichefs_read_fragment fs nb ppos ubuf).ret = 0 ∧
    (ouichefs_read_fragment fs nb ppos ubuf).ubuf = ubuf := by
  by_cases hc : nb ≥ (fs.i_blocks + (UINT64_MOD - 1)) % UINT64_MOD
  · unfold ouichefs_read_fragment
    rw [if_pos hc]
    exact ⟨rfl, rfl⟩
  · have hidx : fs.index (ppos / OUICHEFS_BLOCK_SIZE) = 0 := h.resolve_left hc
    unfold ouichefs_read_fragment
    rw [if_neg hc]
    simp only [hidx, if_pos rfl]
    exact ⟨rfl, rfl⟩

/-- Witness for read_end_of_stream: on the empty file every slot is
unallocated, so a read at position 0 delivers nothing. -/
theorem read_end_of_stream_witness :
    (0 ≥ (emptyFS.i_blocks + (UINT64_MOD - 1)) % UINT64_MOD ∨
      emptyFS.index (0 / OUICHEFS_BLOCK_SIZE) = 0) ∧
    ((ouichefs_read_fragment emptyFS 0 0 (fun _ => 0)).ret = 0 ∧
     (ouichefs_read_fragment emptyFS 0 0 (fun _ => 0)).ubuf = fun _ => 0) :=
  ⟨Or.inr rfl, read_end_of_stream emptyFS 0 0 (fun _ => 0) (Or.inr rfl)⟩

/-- C6 counterexample: a read reaching the used_size-0 block of exRead
with intra-block offset 1 delivers 4096 bytes, not the 4096 - 1 = 4095
bytes the whole-remainder reading of the claim prescribes. -/
theorem read_size_zero_counterexample :
    (ouichefs_read_fragment exRead 0 1 (fun _ => 0)).ret = 4096 ∧
    ¬ (ouichefs_read_fragment exRead 0 1 (fun _ => 0)).ret =
        ((OUICHEFS_BLOCK_SIZE : Int) - 1) := by
  constructor
  · rfl
  · intro h
    simp [OUICHEFS_BLOCK_SIZE] at h
    rw [show (ouichefs_read_fragment exRead 0 1 (fun _ => 0)).ret = 4096 from rfl] at h
    omega

/-- C6 (amended): a read that reaches an allocated block whose decoded
used_size is 0 copies OUICHEFS_BLOCK_SIZE = 4096 bytes starting at the
intra-block offset into the caller's buffer (reading past the block's end
when the offset is nonzero), and reports 4096 bytes delivered. -/
theorem read_size_zero_whole_block (fs : FS) (nb ppos : Nat) (ubuf : Nat → Nat)
    (h1 : ¬ nb ≥ (fs.i_blocks + (UINT64_MOD - 1)) % UINT64_MOD)
    (h2 : fs.index (ppos / OUICHEFS_BLOCK_SIZE) ≠ 0)
    (h3 : get_block_size (fs.index (ppos / OUICHEFS_BLOCK_SIZE)) = 0) :
    (ouichefs_read_fragment fs nb ppos ubuf).ret = (OUICHEFS_BLOCK_SIZE : Int) ∧
    (ouichefs_read_fragment fs nb ppos ubuf).ubuf =
      copyRange ubuf 0 (fs.disk (get_block_number (fs.index (ppos / OUICHEFS_BLOCK_SIZE))))
        (ppos % OUICHEFS_BLOCK_SIZE) OUICHEFS_BLOCK_SIZE := by
  unfold ouichefs_read_fragment
  rw [if_neg h1]
  simp only [if_neg h2, h3]
  norm_num [OUICHEFS_BLOCK_SIZE]

/-- Witness for read_size_zero_whole_block on exRead at cursor 1. -/
theorem read_size_zero_whole_block_witness :
    (¬ 0 ≥ (exRead.i_blocks + (UINT64_MOD - 1)) % UINT64_MOD) ∧
    exRead.index (1 / OUICHEFS_BLOCK_SIZE) ≠ 0 ∧
    get_block_size (exRead.index (1 / OUICHEFS_BLOCK_SIZE)) = 0 ∧
    ((ouichefs_read_fragment exRead 0 1 (fun _ => 0)).ret = (OUICHEFS_BLOCK_SIZE : Int) ∧
     (ouichefs_read_fragment exRead 0 1 (fun _ => 0)).ubuf =
       copyRange (fun _ => 0) 0
         (exRead.disk (get_block_number (exRead.index (1 / OUICHEFS_BLOCK_SIZE))))
         (1 % OUICHEFS_BLOCK_SIZE) OUICHEFS_BLOCK_SIZE) := by
  refine ⟨by decide, by decide, by decide, ?_⟩
  exact read_size_zero_whole_block exRead 0 1 (fun _ => 0) (by decide) (by decide) (by decide)

/-- Field bookkeeping of the target-slot allocation: it never touches
i_size, i_blocks or any index slot other than the target, and when the
target slot was already allocated it changes nothing at all. -/
theorem writeTargetAlloc_fields (fs : FS) (iblock bno : Nat) (fs1 : FS)
    (h : writeTargetAlloc fs iblock = some (bno, fs1)) :
    fs1.i_size = fs.i_size ∧ fs1.i_blocks = fs.i_blocks ∧
    (∀ k, k ≠ iblock → fs1.index k = fs.index k) ∧
    (fs.index iblock ≠ 0 → fs1 = fs) := by
  unfold writeTargetAlloc at h
  by_cases h0 : fs.index iblock = 0
  · rw [if_pos h0] at h
    unfold alloc_one at h
    match hf : fs.free_list with
    | [] => rw [hf] at h; simp at h
    | b :: bs =>
        rw [hf] at h
        by_cases hb : b = 0
        · simp [hb] at h
        · simp only [hb, if_neg hb, ite_false] at h
          injection h with hp
          injection hp with he hfs
          refine ⟨?_, ?_, ?_, ?_⟩
          · rw [← hfs]
          · rw [← hfs]
          · intro k hk
            rw [← hfs]
            exact updIdx_ne _ _ hk
          · intro hne; exact absurd h0 hne
  · rw [if_neg h0] at h
    injection h with hp
    injection hp with he hfs
    exact ⟨by rw [← hfs], by rw [← hfs], fun k _ => by rw [← hfs], fun _ => hfs.symm⟩

/-- C7 (amended): a write whose block-count check
(len + offset) / 4096 + i_blocks > 1023 fires (with the global pre-checks
passing) returns -ENOSPC and leaves i_size, i_blocks and every index slot
other than the target unchanged; when the target slot was already
allocated the whole Index Block is unchanged — but when the target slot
was unallocated, a fresh zero-size entry has already been recorded there
before the failing check (see write_capacity_counterexample). -/
theorem write_capacity_enospc (fs : FS) (buf : Nat → Nat) (len ppos : Nat) (append : Bool)
    (hpre : writePrecheckPass fs len ppos)
    (hcap : (len + (if append then fs.i_size else ppos) % OUICHEFS_BLOCK_SIZE) /
        OUICHEFS_BLOCK_SIZE + fs.i_blocks > (OUICHEFS_BLOCK_SIZE >>> 2) - 1) :
    (ouichefs_write_fragment fs buf len ppos append).ret = -ENOSPC ∧
    (ouichefs_write_fragment fs buf len ppos append).fs.i_size = fs.i_size ∧
    (ouichefs_write_fragment fs buf len ppos append).fs.i_blocks = fs.i_blocks ∧
    (∀ k, k ≠ (if append then fs.i_size else ppos) / OUICHEFS_BLOCK_SIZE →
      (ouichefs_write_fragment fs buf len ppos append).fs.index k = fs.index k) ∧
    (fs.index ((if append then fs.i_size else ppos) / OUICHEFS_BLOCK_SIZE) ≠ 0 →
      ∀ k, (ouichefs_write_fragment fs buf len ppos append).fs.index k = fs.index k) := by
  obtain ⟨h1, h2⟩ := hpre
  unfold ouichefs_write_fragment
  rw [if_neg h1]
  simp only []
  rw [if_neg h2]
  rcases hA : writeTargetAlloc fs ((if append then fs.i_size else ppos) / OUICHEFS_BLOCK_SIZE)
    with _ | ⟨bno, fs1⟩
  · simp only [hA]
    simp
  · simp only [hA]
    obtain ⟨hs, hb, hk, hsame⟩ := writeTargetAlloc_fields fs _ bno fs1 hA
    unfold writeBody
    rw [hb, if_pos hcap]
    refine ⟨rfl, hs, hb, hk, ?_⟩
    intro hne k
    rw [hsame hne]

/-- C7 counterexample: on fsCap the capacity-overflow write (5 additional
blocks would push the 1020 counted blocks past the 1024-entry capacity)
does fail with -ENOSPC, but it does not leave the Index Block unchanged:
the target slot 1019 was unallocated before the call and holds the fresh
entry 999 afterwards. -/
theorem write_capacity_counterexample :
    (ouichefs_write_fragment fsCap (fun _ => 0) 20480 4173824 false).ret = -ENOSPC ∧
    fsCap.index 1019 = 0 ∧
    (ouichefs_write_fragment fsCap (fun _ => 0) 20480 4173824 false).fs.index 1019 = 999 := by
  refine ⟨?_, by decide, ?_⟩ <;> rfl

/-- Witness for write_capacity_enospc: the same capacity-overflow write on
fsCap returns -ENOSPC with i_size and i_blocks untouched. -/
theorem write_capacity_enospc_witness :
    writePrecheckPass fsCap 20480 4173824 ∧
    ((ouichefs_write_fragment fsCap (fun _ => 0) 20480 4173824 false).ret = -ENOSPC ∧
     (ouichefs_write_fragment fsCap (fun _ => 0) 20480 4173824 false).fs.i_size = fsCap.i_size ∧
     (ouichefs_write_fragment fsCap (fun _ => 0) 20480 4173824 false).fs.i_blocks = fsCap.i_blocks) := by
  have hpre : writePrecheckPass fsCap 20480 4173824 := by
    constructor
    · decide
    · decide
  have h := write_capacity_enospc fsCap (fun _ => 0) 20480 4173824 false hpre (by decide)
  exact ⟨hpre, h.1, h.2.1, h.2.2.1⟩

/-- C9 (amended): my_ioctl returns 0 to its caller for every command and
every state: an unrecognized command is merely logged and reported as
success, and the return statuses of the info-query and defragmentation
handlers are discarded rather than propagated. -/
theorem my_ioctl_always_zero (fs : FS) (cmd : Nat) : (my_ioctl fs cmd).1 = 0 := by
  unfold my_ioctl
  split_ifs <;> rfl

/-- C9 counterexample: the unrecognized command 2 is answered with 0
(success), not with the Unsupported error -ENOTTY that ouichefs_ioctl
would produce for it. -/
theorem my_ioctl_counterexample :
    2 ≠ OUICHEFS_IOC_GET_INFO ∧ 2 ≠ OUICHEFS_IOC_GET_DEFRAG ∧
    (my_ioctl emptyFS 2).1 = 0 ∧ (my_ioctl emptyFS 2).1 ≠ -ENOTTY ∧
    ouichefs_ioctl emptyFS 2 = Except.error (-ENOTTY) := by
  refine ⟨by decide, by decide, rfl, by decide, ?_⟩
  rfl

/-! Characterization of the info scan (C8, C10). -/

theorem get_block_size_lt_bs (e : Nat) : get_block_size e < OUICHEFS_BLOCK_SIZE := by
  have h := get_block_size_lt e
  unfold OUICHEFS_BLOCK_SIZE
  omega

theorem infoFold_spec (idx : Nat → Nat) (L : List Nat) : ∀ acc : ouichefs_ioctl_info,
    L.foldl (infoStep idx) acc =
      { used_blocks := acc.used_blocks + (L.filter (fun i => idx i != 0)).length,
        partially_filled_blocks := acc.partially_filled_blocks +
          ((L.filter (fun i => idx i != 0)).filter
            (fun i => get_block_size (idx i) != 0)).length,
        internal_fragmentation := acc.internal_fragmentation +
          (((L.filter (fun i => idx i != 0)).filter
            (fun i => get_block_size (idx i) != 0)).map
            (fun i => OUICHEFS_BLOCK_SIZE - get_block_size (idx i))).sum,
        blocks := acc.blocks ++ (L.filter (fun i => idx i != 0)).map
          (fun i => (get_block_number (idx i), get_block_size (idx i))) } := by
  induction L with
  | nil => intro acc; simp
  | cons x xs ih =>
      intro acc
      rw [List.foldl_cons]
      by_cases h0 : idx x = 0
      · have hstep : infoStep idx acc x = acc := by simp [infoStep, h0]
        rw [hstep, ih]
        simp [List.filter_cons, h0]
      · have hlt := get_block_size_lt_bs (idx x)
        by_cases hs : get_block_size (idx x) = 0
        · have hstep : infoStep idx acc x =
              { used_blocks := acc.used_blocks + 1,
                partially_filled_blocks := acc.partially_filled_blocks,
                internal_fragmentation := acc.internal_fragmentation,
                blocks := acc.blocks ++ [(get_block_number (idx x), get_block_size (idx x))] } := by
            simp [infoStep, h0, hs]
          rw [hstep, ih]
          simp [List.filter_cons, h0, hs, Nat.add_assoc, Nat.add_comm 1]
        · have hstep : infoStep idx acc x =
              { used_blocks := acc.used_blocks + 1,
                partially_filled_blocks := acc.partially_filled_blocks + 1,
                internal_fragmentation := acc.internal_fragmentation +
                  (OUICHEFS_BLOCK_SIZE - get_block_size (idx x)),
                blocks := acc.blocks ++ [(get_block_number (idx x), get_block_size (idx x))] } := by
            simp [infoStep, h0, hs, hlt]
          rw [hstep, ih]
          simp [List.filter_cons, h0, hs]
          constructor <;> omega

/-- The info query succeeds and returns exactly the counters of the
index-level scan. -/
theorem ouichefs_ioctl_ok (fs : FS) :
    ouichefs_ioctl fs OUICHEFS_IOC_GET_INFO = Except.ok
      { used_blocks :=
          ((List.range' 0 (OUICHEFS_BLOCK_SIZE >>> 2)).filter (fun i => fs.index i != 0)).length,
        partially_filled_blocks :=
          (((List.range' 0 (OUICHEFS_BLOCK_SIZE >>> 2)).filter (fun i => fs.index i != 0)).filter
            (fun i => get_block_size (fs.index i) != 0)).length,
        internal_fragmentation :=
          ((((List.range' 0 (OUICHEFS_BLOCK_SIZE >>> 2)).filter (fun i => fs.index i != 0)).filter
            (fun i => get_block_size (fs.index i) != 0)).map
            (fun i => OUICHEFS_BLOCK_SIZE - get_block_size (fs.index i))).sum,
        blocks := perBlock fs } := by
  unfold ouichefs_ioctl forRange perBlock
  rw [if_neg (by simp)]
  rw [infoFold_spec]
  simp

/-- C8: Usage accounting consistency.  For every index block the info
query returns internal_fragmentation equal to the sum of
(4096 - used_size) over exactly the allocated entries with
0 < used_size < 4096, partially_filled_blocks equal to their count, and a
per-block listing holding (block_number, used_size) for every allocated
entry in index order; the query is a pure read of the state and reports
used_blocks as the number of allocated entries. -/
theorem ioctl_info_accounting (fs : FS) :
    ouichefs_ioctl fs OUICHEFS_IOC_GET_INFO = Except.ok
      { used_blocks := (perBlock fs).length,
        partially_filled_blocks :=
          ((perBlock fs).filter
            (fun p => decide (0 < p.2 ∧ p.2 < OUICHEFS_BLOCK_SIZE))).length,
        internal_fragmentation :=
          (((perBlock fs).filter
            (fun p => decide (0 < p.2 ∧ p.2 < OUICHEFS_BLOCK_SIZE))).map
            (fun p => OUICHEFS_BLOCK_SIZE - p.2)).sum,
        blocks := perBlock fs } := by
  have hbridge : (perBlock fs).filter
      (fun p => decide (0 < p.2 ∧ p.2 < OUICHEFS_BLOCK_SIZE)) =
      (((List.range' 0 (OUICHEFS_BLOCK_SIZE >>> 2)).filter (fun i => fs.index i != 0)).filter
        (fun i => get_block_size (fs.index i) != 0)).map
        (fun i => (get_block_number (fs.index i), get_block_size (fs.index i))) := by
    unfold perBlock
    rw [List.filter_map]
    congr 1
    apply List.filter_congr
    intro i _
    by_cases h : get_block_size (fs.index i) = 0
    · simp [Function.comp, h]
    · simp [Function.comp, h, get_block_size_lt_bs, Nat.pos_of_ne_zero h]
  rw [ouichefs_ioctl_ok]
  congr 1
  congr 1
  · simp [perBlock]
  · rw [hbridge, List.length_map]
  · rw [hbridge, List.map_map]
    rfl

/-- C10: Decoded used_size bound.  Every decoded used size is at most
4095, strictly below the 4096-byte block size; a completely full block
(used size 4096) is unrepresentable in an entry; consequently the
size < 4096 test of the info query holds for every entry with nonzero
decoded size, so the query counts every allocated entry with nonzero
used_size as partially filled and charges it 4096 - used_size
fragmentation bytes. -/
theorem decoded_size_bound :
    (∀ e, get_block_size e ≤ 4095) ∧
    (∀ b s, get_block_size (create_block_entry b s) ≠ OUICHEFS_BLOCK_SIZE) ∧
    (∀ fs : FS, ouichefs_ioctl fs OUICHEFS_IOC_GET_INFO = Except.ok
      { used_blocks := (perBlock fs).length,
        partially_filled_blocks := ((perBlock fs).filter (fun p => p.2 != 0)).length,
        internal_fragmentation := (((perBlock fs).filter (fun p => p.2 != 0)).map
          (fun p => OUICHEFS_BLOCK_SIZE - p.2)).sum,
        blocks := perBlock fs }) := by
  refine ⟨?_, ?_, ?_⟩
  · intro e
    have := get_block_size_lt e
    omega
  · intro b s
    have := get_block_size_lt (create_block_entry b s)
    unfold OUICHEFS_BLOCK_SIZE
    omega
  · intro fs
    have hbridge : (perBlock fs).filter (fun p => p.2 != 0) =
        (((List.range' 0 (OUICHEFS_BLOCK_SIZE >>> 2)).filter
            (fun i => fs.index i != 0)).filter
          (fun i => get_block_size (fs.index i) != 0)).map
          (fun i => (get_block_number (fs.index i), get_block_size (fs.index i))) := by
      unfold perBlock
      rw [List.filter_map]
      congr 1
    rw [ouichefs_ioctl_ok]
    congr 1
    congr 1
    · simp [perBlock]
    · rw [hbridge, List.length_map]
    · rw [hbridge, List.map_map]
      rfl

/-! Trace machinery for the insertion scenario (C1) and the interior-zero
defragmentation scenario (C2). -/

theorem ouichefs_write_steps (fs : FS) (buf : Nat → Nat) (len ppos : Nat)
    (bno : Nat) (fs1 : FS) (hpre : writePrecheckPass fs len ppos)
    (hta : writeTargetAlloc fs (ppos / OUICHEFS_BLOCK_SIZE) = some (bno, fs1)) :
    ouichefs_write_fragment fs buf len ppos false =
      writeBody fs1 bno buf len ppos (ppos / OUICHEFS_BLOCK_SIZE) := by
  obtain ⟨h1, h2⟩ := hpre
  unfold ouichefs_write_fragment
  rw [if_neg h1]
  simp only []
  rw [if_neg h2]
  simp only [Bool.false_eq_true, if_false]
  rw [hta]

theorem writeBody_skip (fs1 : FS) (bno : Nat) (buf : Nat → Nat) (len pos0 iblock c : Nat)
    (br : Bool)
    (hcap : ¬ ((len + pos0 % OUICHEFS_BLOCK_SIZE) / OUICHEFS_BLOCK_SIZE + fs1.i_blocks >
      (OUICHEFS_BLOCK_SIZE >>> 2) - 1))
    (hscan : scanRun (fs1.disk (get_block_number bno)) (pos0 % OUICHEFS_BLOCK_SIZE) =
      ⟨c, none, br⟩) :
    writeBody fs1 bno buf len pos0 iblock =
      writeFinish fs1 bno buf iblock (pos0 % OUICHEFS_BLOCK_SIZE)
        (min len (OUICHEFS_BLOCK_SIZE - pos0 % OUICHEFS_BLOCK_SIZE)) pos0
        ((len + pos0 % OUICHEFS_BLOCK_SIZE) / OUICHEFS_BLOCK_SIZE) := by
  unfold writeBody
  rw [if_neg hcap, hscan]
  rfl

theorem writeBody_insert (fs1 : FS) (bno : Nat) (buf : Nat → Nat)
    (len pos0 iblock c s : Nat) (br : Bool)
    (hcap : ¬ ((len + pos0 % OUICHEFS_BLOCK_SIZE) / OUICHEFS_BLOCK_SIZE + fs1.i_blocks >
      (OUICHEFS_BLOCK_SIZE >>> 2) - 1))
    (hscan : scanRun (fs1.disk (get_block_number bno)) (pos0 % OUICHEFS_BLOCK_SIZE) =
      ⟨c, some s, br⟩) :
    writeBody fs1 bno buf len pos0 iblock =
      (match writeInsertMove fs1 iblock
          ((len + pos0 % OUICHEFS_BLOCK_SIZE) / OUICHEFS_BLOCK_SIZE + 1) bno s c with
       | Except.error fs3 => ⟨-ENOSPC, pos0, fs3⟩
       | Except.ok (bno1, fs6) =>
           writeFinish fs6 bno1 buf iblock (pos0 % OUICHEFS_BLOCK_SIZE)
             (min len (OUICHEFS_BLOCK_SIZE - pos0 % OUICHEFS_BLOCK_SIZE)) pos0
             ((len + pos0 % OUICHEFS_BLOCK_SIZE) / OUICHEFS_BLOCK_SIZE + 1)) := by
  unfold writeBody
  rw [if_neg hcap, hscan]
  rfl

theorem scanW1 : scanRun (fsW1.disk (get_block_number 100)) (0 % OUICHEFS_BLOCK_SIZE) =
    ⟨0, none, false⟩ := by
  rw [show fsW1.disk (get_block_number 100) = fun _ => 0 from rfl]
  exact scanRun_zeros _ _ (fun i _ _ => rfl)

theorem read_counter_stop (fs : FS) (nb ppos : Nat) (ubuf : Nat → Nat)
    (h : nb ≥ (fs.i_blocks + (UINT64_MOD - 1)) % UINT64_MOD) :
    ouichefs_read_fragment fs nb ppos ubuf = ⟨0, ubuf, 0, ppos⟩ := by
  unfold ouichefs_read_fragment
  rw [if_pos h]

theorem read_fragment_ge (fs : FS) (nb ppos : Nat) (ubuf : Nat → Nat) (c : Nat)
    (pc : Option Nat) (br : Bool)
    (h1 : ¬ nb ≥ (fs.i_blocks + (UINT64_MOD - 1)) % UINT64_MOD)
    (h2 : fs.index (ppos / OUICHEFS_BLOCK_SIZE) ≠ 0)
    (h3 : get_block_size (fs.index (ppos / OUICHEFS_BLOCK_SIZE)) ≠ 0)
    (hscan : scanRun (fs.disk (get_block_number (fs.index (ppos / OUICHEFS_BLOCK_SIZE))))
      (ppos % OUICHEFS_BLOCK_SIZE) = ⟨c, pc, br⟩)
    (hge : c ≥ get_block_size (fs.index (ppos / OUICHEFS_BLOCK_SIZE))) :
    ouichefs_read_fragment fs nb ppos ubuf =
      ⟨(c : Int),
        copyRange ubuf 0 (fs.disk (get_block_number (fs.index (ppos / OUICHEFS_BLOCK_SIZE))))
          (pc.getD 0) c,
        nb + 1, ppos + c + (OUICHEFS_BLOCK_SIZE - c)⟩ := by
  unfold ouichefs_read_fragment
  rw [if_neg h1]
  simp only [if_neg h2, hscan, if_pos h3, if_pos hge]

theorem read_fragment_lt (fs : FS) (nb ppos : Nat) (ubuf : Nat → Nat) (c : Nat)
    (pc : Option Nat) (br : Bool)
    (h1 : ¬ nb ≥ (fs.i_blocks + (UINT64_MOD - 1)) % UINT64_MOD)
    (h2 : fs.index (ppos / OUICHEFS_BLOCK_SIZE) ≠ 0)
    (h3 : get_block_size (fs.index (ppos / OUICHEFS_BLOCK_SIZE)) ≠ 0)
    (hscan : scanRun (fs.disk (get_block_number (fs.index (ppos / OUICHEFS_BLOCK_SIZE))))
      (ppos % OUICHEFS_BLOCK_SIZE) = ⟨c, pc, br⟩)
    (hlt : c < get_block_size (fs.index (ppos / OUICHEFS_BLOCK_SIZE))) :
    ouichefs_read_fragment fs nb ppos ubuf =
      ⟨(c : Int),
        copyRange ubuf 0 (fs.disk (get_block_number (fs.index (ppos / OUICHEFS_BLOCK_SIZE))))
          (pc.getD 0) c,
        nb, ppos + c⟩ := by
  unfold ouichefs_read_fragment
  rw [if_neg h1]
  simp only [if_neg h2, hscan, if_pos h3, if_neg (Nat.not_le.mpr hlt)]

theorem readStream_step (fs : FS) (fuel nb ppos : Nat) (out : Nat → Nat) (outLen : Nat)
    (r : ReadOut) (hr : ouichefs_read_fragment fs nb ppos (fun _ => 0) = r)
    (hpos : 0 < r.ret) :
    readStream fs (fuel + 1) nb ppos out outLen =
      readStream fs fuel r.nb r.ppos (copyRange out outLen r.ubuf 0 r.ret.toNat)
        (outLen + r.ret.toNat) := by
  conv_lhs => rw [readStream]
  rw [hr, if_neg (by omega)]

theorem readStream_stop (fs : FS) (fuel nb ppos : Nat) (out : Nat → Nat) (outLen : Nat)
    (r : ReadOut) (hr : ouichefs_read_fragment fs nb ppos (fun _ => 0) = r)
    (hneg : r.ret ≤ 0) :
    readStream fs (fuel + 1) nb ppos out outLen = (out, outLen) := by
  conv_lhs => rw [readStream]
  rw [hr, if_pos hneg]

theorem fsC1aX_eq : fsC1aX = fsC1aE := by
  unfold fsC1aX fsC1aE
  congr 1
  · funext k
    by_cases h : k = 0 <;> simp [updIdx, h]
  · funext b p
    by_cases hb : b = 100
    · subst hb
      rw [updBlock_self]
      by_cases hp : p < 4096
      · rw [copyRange_in _ _ _ _ _ _ (by omega) (by omega)]
        simp only [Nat.zero_add, Nat.sub_zero]
        simp [bufA, ablk, hp]
        omega
      · rw [copyRange_out _ _ _ _ _ _ (by omega)]
        simp [updBlock, ablk, hp]
    · rw [updBlock_ne _ _ hb, updBlock_ne _ _ hb]
      simp [hb]

theorem write1_eq : ouichefs_write_fragment emptyFS (bufA 4999) 4999 0 false =
    ⟨4096, 4096, fsC1aE⟩ := by
  rw [ouichefs_write_steps emptyFS (bufA 4999) 4999 0 100 fsW1 ⟨by decide, by decide⟩ rfl,
    writeBody_skip fsW1 100 (bufA 4999) 4999 0 (0 / OUICHEFS_BLOCK_SIZE) 0 false
      (by decide) scanW1]
  rw [show writeFinish fsW1 100 (bufA 4999) (0 / OUICHEFS_BLOCK_SIZE) (0 % OUICHEFS_BLOCK_SIZE)
      (min 4999 (OUICHEFS_BLOCK_SIZE - 0 % OUICHEFS_BLOCK_SIZE)) 0
      ((4999 + 0 % OUICHEFS_BLOCK_SIZE) / OUICHEFS_BLOCK_SIZE) =
      ⟨4096, 4096, fsC1aX⟩ from rfl, fsC1aX_eq]

theorem scanW2 : scanRun (fsW2.disk (get_block_number 101)) (4096 % OUICHEFS_BLOCK_SIZE) =
    ⟨0, none, false⟩ := by
  rw [show fsW2.disk (get_block_number 101) = fun _ => 0 from rfl,
    show 4096 % OUICHEFS_BLOCK_SIZE = 0 from rfl]
  exact scanRun_zeros _ _ (fun i _ _ => rfl)

theorem fsC1bX_eq : fsC1bX = fsC1bE := by
  unfold fsC1bX fsC1bE
  congr 1
  · funext k
    by_cases h1 : k = 1
    · subst h1; simp [updIdx]
    · rw [updIdx_ne _ _ h1, updIdx_ne _ _ h1]
      by_cases h0 : k = 0 <;> simp [fsC1aE, h0, h1]
  · funext b p
    by_cases hb : b = 101
    · subst hb
      rw [updBlock_self]
      by_cases hp : p < 903
      · rw [copyRange_in _ _ _ _ _ _ (by omega) (by omega)]
        simp [bufA, ablk, hp]
      · rw [copyRange_out _ _ _ _ _ _ (by omega)]
        simp [ablk, hp]
    · rw [updBlock_ne _ _ hb, updBlock_ne _ _ hb]
      by_cases h0 : b = 100 <;> simp [fsC1aE, h0, hb]

theorem write2_eq : ouichefs_write_fragment fsC1aE (bufA 903) 903 4096 false =
    ⟨903, 4999, fsC1bE⟩ := by
  rw [ouichefs_write_steps fsC1aE (bufA 903) 903 4096 101 fsW2 ⟨by decide, by decide⟩ rfl,
    writeBody_skip fsW2 101 (bufA 903) 903 4096 (4096 / OUICHEFS_BLOCK_SIZE) 0 false
      (by decide) scanW2]
  rw [show writeFinish fsW2 101 (bufA 903) (4096 / OUICHEFS_BLOCK_SIZE)
      (4096 % OUICHEFS_BLOCK_SIZE)
      (min 903 (OUICHEFS_BLOCK_SIZE - 4096 % OUICHEFS_BLOCK_SIZE)) 4096
      ((903 + 4096 % OUICHEFS_BLOCK_SIZE) / OUICHEFS_BLOCK_SIZE) =
      ⟨903, 4999, fsC1bX⟩ from rfl, fsC1bX_eq]

theorem scanW3 : scanRun (fsC1bE.disk (get_block_number 100)) (3 % OUICHEFS_BLOCK_SIZE) =
    ⟨4093, some 3, false⟩ := by
  rw [show fsC1bE.disk (get_block_number 100) = ablk 4096 from rfl,
    show 3 % OUICHEFS_BLOCK_SIZE = 3 from rfl]
  rw [scanRun_eq (ablk 4096) 3 3 4096 le_rfl (by omega)
    (by norm_num [OUICHEFS_BLOCK_SIZE])
    (fun i h1 h2 => absurd h2 (by omega))
    (fun i h1 h2 => by simp [ablk, h2])
    (fun h => absurd h (by norm_num [OUICHEFS_BLOCK_SIZE]))]
  rfl

theorem write3_raw : ouichefs_write_fragment fsC1bE bufSuite 5 3 false = ⟨5, 8, fsC1cX⟩ := by
  rw [ouichefs_write_steps fsC1bE bufSuite 5 3 100 fsC1bE ⟨by decide, by decide⟩ rfl,
    writeBody_insert fsC1bE 100 bufSuite 5 3 (3 / OUICHEFS_BLOCK_SIZE) 4093 3 false
      (by decide) scanW3]
  rfl

theorem fsC1cX_eq : fsC1cX = fsC1cE := by
  unfold fsC1cX fsC1cE
  congr 1
  · funext k
    by_cases h0 : k = 0
    · subst h0; simp [updIdx]
    · rw [updIdx_ne _ _ h0]
      unfold idxW3
      rw [updIdx_ne _ _ h0]
      by_cases h1 : k = 1
      · subst h1; simp [updIdx]
      · rw [updIdx_ne _ _ h1, updIdx_ne _ _ h1]
        by_cases h2 : k = 2
        · subst h2; simp [updIdx]
        · rw [updIdx_ne _ _ h2]
          simp [fsC1bE, h0, h1, h2]
  · funext b p
    by_cases hb : b = 100
    · subst hb
      rw [updBlock_self]
      by_cases hp3 : p < 3
      · rw [copyRange_out _ _ _ _ _ _ (by omega), setRange_out _ _ _ _ _ (by omega)]
        simp [ablk, blkAS, hp3]
        omega
      · by_cases hp8 : p < 8
        · rw [copyRange_in _ _ _ _ _ _ (by omega) (by omega)]
          simp [blkAS, hp3, hp8]
        · by_cases hpb : p < 4096
          · rw [copyRange_out _ _ _ _ _ _ (by omega),
              setRange_in _ _ _ _ _ (by omega) (by omega)]
            simp [blkAS, hp3, hp8]
          · rw [copyRange_out _ _ _ _ _ _ (by omega),
              setRange_out _ _ _ _ _ (by omega)]
            simp [ablk, blkAS, hp3, hp8, hpb]
    · rw [updBlock_ne _ _ hb]
      unfold dskW3
      rw [updBlock_ne _ _ hb]
      by_cases hc : b = 102
      · subst hc
        rw [updBlock_self]
        by_cases hp : p < 4093
        · rw [copyRange_in _ _ _ _ _ _ (by omega) (by omega)]
          have hlt : 3 + p < 4096 := by omega
          simp [ablk, hlt, hp]
        · rw [copyRange_out _ _ _ _ _ _ (by omega)]
          simp [ablk, hb, hp]
      · rw [updBlock_ne _ _ hc]
        by_cases h1 : b = 101 <;> simp [updBlock, fsC1bE, hb, hc, h1]

theorem write3_eq : ouichefs_write_fragment fsC1bE bufSuite 5 3 false = ⟨5, 8, fsC1cE⟩ := by
  rw [write3_raw, fsC1cX_eq]

theorem readC1_1 : ouichefs_read_fragment fsC1cE 0 0 (fun _ => 0) =
    ⟨8, ubuf1C1, 1, 4096⟩ := by
  have hs : scanRun
      (fsC1cE.disk (get_block_number (fsC1cE.index (0 / OUICHEFS_BLOCK_SIZE))))
      (0 % OUICHEFS_BLOCK_SIZE) = ⟨8, some 0, true⟩ := by
    rw [show fsC1cE.disk (get_block_number (fsC1cE.index (0 / OUICHEFS_BLOCK_SIZE))) =
        blkAS from rfl, show 0 % OUICHEFS_BLOCK_SIZE = 0 from rfl]
    rw [scanRun_eq blkAS 0 0 8 (Nat.zero_le _) (by omega)
      (by norm_num [OUICHEFS_BLOCK_SIZE])
      (fun i h1 h2 => absurd h2 (by omega))
      (fun i h1 h2 => by interval_cases i <;> decide)
      (fun _ => by decide)]
    rfl
  rw [read_fragment_ge fsC1cE 0 0 (fun _ => 0) 8 (some 0) true
    (by decide) (by decide) (by decide) hs (by decide)]
  rfl

theorem readC1_2 : ouichefs_read_fragment fsC1cE 1 4096 (fun _ => 0) =
    ⟨4093, ubuf2C1, 2, 8192⟩ := by
  have hs : scanRun
      (fsC1cE.disk (get_block_number (fsC1cE.index (4096 / OUICHEFS_BLOCK_SIZE))))
      (4096 % OUICHEFS_BLOCK_SIZE) = ⟨4093, some 0, true⟩ := by
    rw [show fsC1cE.disk (get_block_number (fsC1cE.index (4096 / OUICHEFS_BLOCK_SIZE))) =
        ablk 4093 from rfl, show 4096 % OUICHEFS_BLOCK_SIZE = 0 from rfl]
    rw [scanRun_eq (ablk 4093) 0 0 4093 (Nat.zero_le _) (by omega)
      (by norm_num [OUICHEFS_BLOCK_SIZE])
      (fun i h1 h2 => absurd h2 (by omega))
      (fun i h1 h2 => by simp [ablk, h2])
      (fun _ => by simp [ablk])]
    rfl
  rw [read_fragment_ge fsC1cE 1 4096 (fun _ => 0) 4093 (some 0) true
    (by decide) (by decide) (by decide) hs (by decide)]
  rfl

theorem readC1_3 : ouichefs_read_fragment fsC1cE 2 8192 (fun _ => 0) =
    ⟨903, ubuf3C1, 3, 12288⟩ := by
  have hs : scanRun
      (fsC1cE.disk (get_block_number (fsC1cE.index (8192 / OUICHEFS_BLOCK_SIZE))))
      (8192 % OUICHEFS_BLOCK_SIZE) = ⟨903, some 0, true⟩ := by
    rw [show fsC1cE.disk (get_block_number (fsC1cE.index (8192 / OUICHEFS_BLOCK_SIZE))) =
        ablk 903 from rfl, show 8192 % OUICHEFS_BLOCK_SIZE = 0 from rfl]
    rw [scanRun_eq (ablk 903) 0 0 903 (Nat.zero_le _) (by omega)
      (by norm_num [OUICHEFS_BLOCK_SIZE])
      (fun i h1 h2 => absurd h2 (by omega))
      (fun i h1 h2 => by simp [ablk, h2])
      (fun _ => by simp [ablk])]
    rfl
  rw [read_fragment_ge fsC1cE 2 8192 (fun _ => 0) 903 (some 0) true
    (by decide) (by decide) (by decide) hs (by decide)]
  rfl

theorem readC1_4 : ouichefs_read_fragment fsC1cE 3 12288 (fun _ => 0) =
    ⟨0, fun _ => 0, 0, 12288⟩ :=
  read_counter_stop fsC1cE 3 12288 (fun _ => 0) (by decide)

theorem readAll_C1 : readAll fsC1cE = (outC1, 5004) := by
  unfold readAll
  rw [show (10 : Nat) = 9 + 1 from rfl,
    readStream_step fsC1cE 9 0 0 (fun _ => 0) 0 _ readC1_1 (by decide)]
  show readStream fsC1cE 9 1 4096 (copyRange (fun _ => 0) 0 ubuf1C1 0 8) 8 = (outC1, 5004)
  rw [show (9 : Nat) = 8 + 1 from rfl,
    readStream_step fsC1cE 8 1 4096 (copyRange (fun _ => 0) 0 ubuf1C1 0 8) 8 _ readC1_2
      (by decide)]
  show readStream fsC1cE 8 2 8192
    (copyRange (copyRange (fun _ => 0) 0 ubuf1C1 0 8) 8 ubuf2C1 0 4093) 4101 = (outC1, 5004)
  rw [show (8 : Nat) = 7 + 1 from rfl,
    readStream_step fsC1cE 7 2 8192
      (copyRange (copyRange (fun _ => 0) 0 ubuf1C1 0 8) 8 ubuf2C1 0 4093) 4101 _ readC1_3
      (by decide)]
  show readStream fsC1cE 7 3 12288 outC1 5004 = (outC1, 5004)
  rw [show (7 : Nat) = 6 + 1 from rfl,
    readStream_stop fsC1cE 6 3 12288 outC1 5004 _ readC1_4 (by decide)]

theorem outC1_spec (k : Nat) (hk : k < 5004) : outC1 k = expectedC1 k := by
  unfold outC1
  by_cases h8 : k < 8
  · rw [copyRange_out _ _ _ _ _ _ (by omega), copyRange_out _ _ _ _ _ _ (by omega),
      copyRange_in _ _ _ _ _ _ (by omega) (by omega)]
    unfold ubuf1C1
    rw [copyRange_in _ _ _ _ _ _ (by omega) (by omega)]
    simp only [Nat.zero_add, Nat.sub_zero]
    by_cases h3 : k < 3 <;> simp [blkAS, expectedC1, h3, h8]
  · by_cases h41 : k < 4101
    · rw [copyRange_out _ _ _ _ _ _ (by omega),
        copyRange_in _ _ _ _ _ _ (by omega) (by omega)]
      unfold ubuf2C1
      rw [copyRange_in _ _ _ _ _ _ (by omega) (by omega)]
      simp only [Nat.zero_add, Nat.sub_zero]
      simp [ablk, expectedC1, h8]
      omega
    · rw [copyRange_in _ _ _ _ _ _ (by omega) (by omega)]
      unfold ubuf3C1
      rw [copyRange_in _ _ _ _ _ _ (by omega) (by omega)]
      simp only [Nat.zero_add, Nat.sub_zero]
      simp [ablk, expectedC1, h8]
      omega

/-- C1: Insertion write correctness.  Writing 4999 letters a to the empty
file (two calls, as the userspace write loop issues them: the first
delivers 4096 bytes, the second the remaining 903) produces the states
fsC1aE then fsC1bE, a file of 4999 letters a; the 5-byte write of suite at
offset 3 (no append) then returns 5 and produces fsC1cE; reading the file
from offset 0 delivers 5004 bytes whose k-th byte is aaa, then suite, then
the original letters from old offset 3 onward shifted right by 5 — the
write behaves as an insertion, not an overwrite. -/
theorem insertion_write_correct (k : Nat) (hk : k < 5004) :
    ouichefs_write_fragment emptyFS (bufA 4999) 4999 0 false = ⟨4096, 4096, fsC1aE⟩ ∧
    ouichefs_write_fragment fsC1aE (bufA 903) 903 4096 false = ⟨903, 4999, fsC1bE⟩ ∧
    ouichefs_write_fragment fsC1bE bufSuite 5 3 false = ⟨5, 8, fsC1cE⟩ ∧
    (readAll fsC1cE).2 = 5004 ∧
    (readAll fsC1cE).1 k = expectedC1 k :=
  ⟨write1_eq, write2_eq, write3_eq, by rw [readAll_C1],
    by rw [readAll_C1]; exact outC1_spec k hk⟩

/-- Witness for insertion_write_correct at byte 4101, the first byte
delivered by the third read call. -/
theorem insertion_write_correct_witness :
    4101 < 5004 ∧
    (ouichefs_write_fragment emptyFS (bufA 4999) 4999 0 false = ⟨4096, 4096, fsC1aE⟩ ∧
     ouichefs_write_fragment fsC1aE (bufA 903) 903 4096 false = ⟨903, 4999, fsC1bE⟩ ∧
     ouichefs_write_fragment fsC1bE bufSuite 5 3 false = ⟨5, 8, fsC1cE⟩ ∧
     (readAll fsC1cE).2 = 5004 ∧
     (readAll fsC1cE).1 4101 = expectedC1 4101) :=
  ⟨by omega, insertion_write_correct 4101 (by omega)⟩

theorem bufC2_big (p : Nat) (hp : 4 ≤ p) : bufC2 p = 0 := by
  unfold bufC2
  exact List.getD_eq_default _ _ (by simp; omega)

theorem fsC2X_eq : fsC2X = fsC2E := by
  unfold fsC2X fsC2E
  congr 1
  · funext k
    by_cases h : k = 0 <;> simp [updIdx, h]
  · funext b p
    by_cases hb : b = 100
    · subst hb
      rw [updBlock_self]
      by_cases hp : p < 4
      · rw [copyRange_in _ _ _ _ _ _ (by omega) (by omega)]
        simp
      · rw [copyRange_out _ _ _ _ _ _ (by omega)]
        simp [updBlock, bufC2_big p (by omega)]
    · rw [updBlock_ne _ _ hb, updBlock_ne _ _ hb]
      simp [hb]

theorem writeC2_eq : ouichefs_write_fragment emptyFS bufC2 4 0 false = ⟨4, 4, fsC2E⟩ := by
  rw [ouichefs_write_steps emptyFS bufC2 4 0 100 fsW1 ⟨by decide, by decide⟩ rfl,
    writeBody_skip fsW1 100 bufC2 4 0 (0 / OUICHEFS_BLOCK_SIZE) 0 false
      (by decide) scanW1]
  rw [show writeFinish fsW1 100 bufC2 (0 / OUICHEFS_BLOCK_SIZE) (0 % OUICHEFS_BLOCK_SIZE)
      (min 4 (OUICHEFS_BLOCK_SIZE - 0 % OUICHEFS_BLOCK_SIZE)) 0
      ((4 + 0 % OUICHEFS_BLOCK_SIZE) / OUICHEFS_BLOCK_SIZE) =
      ⟨4, 4, fsC2X⟩ from rfl, fsC2X_eq]

theorem d2C2_zeros (i : Nat) (hi : 4 ≤ i) : d2C2 i = 0 := by
  unfold d2C2
  rw [setRange_out _ _ _ _ _ (by omega), copyRange_out _ _ _ _ _ _ (by omega)]
  exact bufC2_big i hi

theorem contigue_zeros (d : Nat → Nat) (f : Int) (n : Nat) :
    ∀ (lo : Nat) (e : Int) (a : Bool),
    (∀ i, lo ≤ i → i < lo + n → d i = 0) → 0 < n →
    (List.range' lo n).foldl contigueStep ⟨d, e, f, 0, a⟩ =
      ⟨d, ((lo + n - 1 : Nat) : Int), f, 0, true⟩ := by
  induction n with
  | zero => intro lo e a _ h; omega
  | succ n ih =>
      intro lo e a hz _
      rw [List.range'_succ, List.foldl_cons]
      have h0 : d lo = 0 := hz lo le_rfl (by omega)
      have hstep : contigueStep ⟨d, e, f, 0, a⟩ lo = ⟨d, (lo : Int), f, 0, true⟩ := by
        simp [contigueStep, h0]
      rw [hstep]
      by_cases hn : 0 < n
      · rw [ih (lo + 1) lo true (fun i h1 h2 => hz i (by omega) (by omega)) hn]
        congr 1
        · exact congrArg Nat.cast (by omega)
      · have hn0 : n = 0 := by omega
        subst hn0
        simp

theorem contigueC2_start :
    (List.range' 0 5).foldl contigueStep ⟨bufC2, -1, 0, 0, false⟩ =
      ⟨d2C2, 4, 1, 0, false⟩ := rfl

theorem contigueC2_fold :
    forRange contigueStep 0 OUICHEFS_BLOCK_SIZE
      ⟨fsC2E.disk (get_block_number 4194404), -1, 0, 0, false⟩ =
      ⟨d2C2, ((4095 : Nat) : Int), 1, 0, true⟩ := by
  rw [show fsC2E.disk (get_block_number 4194404) = bufC2 from rfl]
  unfold forRange
  rw [show OUICHEFS_BLOCK_SIZE = 4096 from rfl]
  rw [show List.range' 0 4096 = List.range' 0 5 ++ List.range' 5 4091 by
    rw [List.range'_append_1]]
  rw [List.foldl_append, contigueC2_start]
  rw [contigue_zeros d2C2 1 4091 5 4 false
    (fun i h1 h2 => d2C2_zeros i (by omega)) (by omega)]

theorem applyContigueC2 :
    apply_contigue 4194404 fsC2E.disk = updBlock fsC2E.disk 100 d2C2 := by
  unfold apply_contigue
  rw [if_neg (by decide)]
  simp only []
  rw [contigueC2_fold]
  rw [if_neg (by decide)]
  rfl

theorem defragStep1_broke (L : List Nat) (fs : FS) :
    L.foldl defragStep1 (fs, true) = (fs, true) := by
  induction L with
  | nil => rfl
  | cons x xs ih => simp [List.foldl, defragStep1, ih]

theorem defragC2_pass1 :
    forRange defragStep1 0 (OUICHEFS_BLOCK_SIZE >>> 2) (fsC2E, false) = (fsP1, true) := by
  unfold forRange
  rw [show OUICHEFS_BLOCK_SIZE >>> 2 = 1024 from rfl]
  rw [show (1024 : Nat) = 1023 + 1 from rfl, List.range'_succ,
    show (1023 : Nat) = 1022 + 1 from rfl, List.range'_succ]
  rw [List.foldl_cons, List.foldl_cons]
  have h0 : defragStep1 (fsC2E, false) 0 =
      ({ fsC2E with disk := apply_contigue 4194404 fsC2E.disk }, false) := rfl
  rw [h0, applyContigueC2]
  have h1 : defragStep1 ({ fsC2E with disk := updBlock fsC2E.disk 100 d2C2 }, false) 1 =
      (fsP1, true) := rfl
  rw [h1, defragStep1_broke]

theorem pass2Inner_fix (i sl size cb : Nat) (n : Nat) :
    ∀ (lo : Nat) (fs' : FS),
    (∀ j, lo ≤ j → j < lo + n → fs'.index j = 0) →
    create_block_entry (get_block_number cb) size = cb →
    fs'.index i = cb →
    (List.range' lo n).foldl (pass2Inner i sl) ⟨fs', size, cb⟩ = ⟨fs', size, cb⟩ := by
  induction n with
  | zero => intro lo fs' _ _ _; rfl
  | succ n ih =>
      intro lo fs' hz hcb hidx
      rw [List.range'_succ, List.foldl_cons]
      have hj : fs'.index lo = 0 := hz lo le_rfl (by omega)
      have hupd : updIdx fs'.index i cb = fs'.index := by
        funext k
        by_cases h : k = i
        · subst h; simp [updIdx, hidx]
        · simp [updIdx, h]
      have hstep : pass2Inner i sl ⟨fs', size, cb⟩ lo = ⟨fs', size, cb⟩ := by
        unfold pass2Inner
        simp only [hj]
        rw [show get_block_size 0 = 0 from rfl]
        simp only [Nat.min_zero]
        simp only [memcpyDisk, memsetDisk, if_pos rfl]
        simp only [Nat.add_zero]
        rw [hcb, hupd]
        simp
      rw [hstep]
      exact ih (lo + 1) fs' (fun j h1 h2 => hz j (by omega) (by omega)) hcb hidx

theorem defragStep2_broke (L : List Nat) (fs : FS) (cp : Nat) :
    L.foldl defragStep2 (fs, cp, true) = (fs, cp, true) := by
  induction L with
  | nil => rfl
  | cons x xs ih => simp [List.foldl, defragStep2, ih]

theorem pass2InnerC2_fix :
    forRange (pass2Inner 0 (OUICHEFS_BLOCK_SIZE - get_block_size (fsP1.index 0))) (0 + 1)
      (OUICHEFS_BLOCK_SIZE >>> 2 - (0 + 1)) ⟨fsP1, get_block_size (fsP1.index 0), fsP1.index 0⟩ =
      ⟨fsP1, 4, 4194404⟩ := by
  rw [show get_block_size (fsP1.index 0) = 4 from rfl,
    show fsP1.index 0 = 4194404 from rfl]
  unfold forRange
  exact pass2Inner_fix 0 (OUICHEFS_BLOCK_SIZE - 4) 4 4194404
    (OUICHEFS_BLOCK_SIZE >>> 2 - (0 + 1)) (0 + 1) fsP1
    (fun j h1 h2 => by
      show fsC2E.index j = 0
      unfold fsC2E
      simp only []
      rw [if_neg (by omega)])
    (by decide) rfl

theorem defragStep2_run (fs : FS) (cp i : Nat) (inner : Pass2State)
    (h1 : ¬ fs.index i = 0) (h2 : ¬ get_block_size (fs.index i) = 0)
    (hin : forRange (pass2Inner i (OUICHEFS_BLOCK_SIZE - get_block_size (fs.index i)))
      (i + 1) ((OUICHEFS_BLOCK_SIZE >>> 2) - (i + 1))
      ⟨fs, get_block_size (fs.index i), fs.index i⟩ = inner) :
    defragStep2 (fs, cp, false) i =
      (if cp + inner.size ≥ inner.fs.i_size then
        { freeTail inner.fs
            (List.range' (max (i + 1) (OUICHEFS_BLOCK_SIZE >>> 2) + 1)
              ((inner.fs.i_blocks - 1) - (max (i + 1) (OUICHEFS_BLOCK_SIZE >>> 2) + 1)))
          with i_blocks := max (i + 1) (OUICHEFS_BLOCK_SIZE >>> 2) + 1 }
       else inner.fs, cp + inner.size, false) := by
  unfold defragStep2
  simp only [if_neg h1, if_neg h2]
  rw [hin]
  rfl

theorem defragC2_step20 : defragStep2 (fsP1, 0, false) 0 = (fsP2, 4, false) := by
  rw [defragStep2_run fsP1 0 0 ⟨fsP1, 4, 4194404⟩ (by decide) (by decide) pass2InnerC2_fix]
  rfl

theorem defragC2_pass2 :
    forRange defragStep2 0 (OUICHEFS_BLOCK_SIZE >>> 2) (fsP1, 0, false) =
      (fsP2, 4, true) := by
  unfold forRange
  rw [show OUICHEFS_BLOCK_SIZE >>> 2 = 1024 from rfl]
  rw [show (1024 : Nat) = 1023 + 1 from rfl, List.range'_succ,
    show (1023 : Nat) = 1022 + 1 from rfl, List.range'_succ]
  rw [List.foldl_cons, List.foldl_cons, defragC2_step20]
  have h1 : defragStep2 (fsP2, 4, false) 1 = (fsP2, 4, true) := rfl
  rw [h1, defragStep2_broke]

theorem fsP2_eq : fsP2 = fsC2dE := by
  unfold fsP2 fsC2dE
  congr 1
  · funext b p
    by_cases hb : b = 100
    · subst hb
      rw [updBlock_self]
      unfold d2C2
      by_cases h0 : p = 0
      · subst h0
        rw [setRange_out _ _ _ _ _ (by omega), copyRange_out _ _ _ _ _ _ (by omega)]
        rfl
      · by_cases h1 : p = 1
        · subst h1
          rw [setRange_out _ _ _ _ _ (by omega),
            copyRange_in _ _ _ _ _ _ (by omega) (by omega)]
          decide
        · by_cases h4 : p < 4
          · rw [setRange_in _ _ _ _ _ (by omega) (by omega)]
            simp [blkC2d, h0, h1]
          · rw [setRange_out _ _ _ _ _ (by omega),
              copyRange_out _ _ _ _ _ _ (by omega)]
            simp [blkC2d, h0, h1, bufC2_big p (by omega)]
    · rw [updBlock_ne _ _ hb]
      simp [fsC2E, hb]

theorem defrag_unfold (fs : FS) (p1 : FS × Bool)
    (hp1 : forRange defragStep1 0 (OUICHEFS_BLOCK_SIZE >>> 2) (fs, false) = p1) :
    ouichefs_ioctl_defragmentation fs =
      ((0 : Int), (forRange defragStep2 0 (OUICHEFS_BLOCK_SIZE >>> 2) (p1.1, 0, false)).1) := by
  unfold ouichefs_ioctl_defragmentation
  rw [hp1]

theorem defragC2_eq : ouichefs_ioctl_defragmentation fsC2E = (0, fsC2dE) := by
  rw [defrag_unfold fsC2E (fsP1, true) defragC2_pass1,
    show ((fsP1, true).1 : FS) = fsP1 from rfl, defragC2_pass2, fsP2_eq]

theorem readC2b_1 : ouichefs_read_fragment fsC2E 0 0 (fun _ => 0) =
    ⟨1, copyRange (fun _ => 0) 0 bufC2 0 1, 0, 1⟩ := by
  have hs : scanRun
      (fsC2E.disk (get_block_number (fsC2E.index (0 / OUICHEFS_BLOCK_SIZE))))
      (0 % OUICHEFS_BLOCK_SIZE) = ⟨1, some 0, true⟩ := by
    rw [show fsC2E.disk (get_block_number (fsC2E.index (0 / OUICHEFS_BLOCK_SIZE))) =
        bufC2 from rfl, show 0 % OUICHEFS_BLOCK_SIZE = 0 from rfl]
    rw [scanRun_eq bufC2 0 0 1 (Nat.zero_le _) (by omega)
      (by norm_num [OUICHEFS_BLOCK_SIZE])
      (fun i h1 h2 => absurd h2 (by omega))
      (fun i h1 h2 => by interval_cases i; decide)
      (fun _ => by decide)]
    rfl
  rw [read_fragment_lt fsC2E 0 0 (fun _ => 0) 1 (some 0) true
    (by decide) (by decide) (by decide) hs (by decide)]
  rfl

theorem readC2b_2 : ouichefs_read_fragment fsC2E 0 1 (fun _ => 0) =
    ⟨2, copyRange (fun _ => 0) 0 bufC2 2 2, 0, 3⟩ := by
  have hs : scanRun
      (fsC2E.disk (get_block_number (fsC2E.index (1 / OUICHEFS_BLOCK_SIZE))))
      (1 % OUICHEFS_BLOCK_SIZE) = ⟨2, some 2, true⟩ := by
    rw [show fsC2E.disk (get_block_number (fsC2E.index (1 / OUICHEFS_BLOCK_SIZE))) =
        bufC2 from rfl, show 1 % OUICHEFS_BLOCK_SIZE = 1 from rfl]
    rw [scanRun_eq bufC2 1 2 4 (by omega) (by omega)
      (by norm_num [OUICHEFS_BLOCK_SIZE])
      (fun i h1 h2 => by interval_cases i; decide)
      (fun i h1 h2 => by interval_cases i <;> decide)
      (fun _ => by decide)]
    rfl
  rw [read_fragment_lt fsC2E 0 1 (fun _ => 0) 2 (some 2) true
    (by decide) (by decide) (by decide) hs (by decide)]
  rfl

theorem readC2b_3 : ouichefs_read_fragment fsC2E 0 3 (fun _ => 0) =
    ⟨1, copyRange (fun _ => 0) 0 bufC2 3 1, 0, 4⟩ := by
  have hs : scanRun
      (fsC2E.disk (get_block_number (fsC2E.index (3 / OUICHEFS_BLOCK_SIZE))))
      (3 % OUICHEFS_BLOCK_SIZE) = ⟨1, some 3, true⟩ := by
    rw [show fsC2E.disk (get_block_number (fsC2E.index (3 / OUICHEFS_BLOCK_SIZE))) =
        bufC2 from rfl, show 3 % OUICHEFS_BLOCK_SIZE = 3 from rfl]
    rw [scanRun_eq bufC2 3 3 4 le_rfl (by omega)
      (by norm_num [OUICHEFS_BLOCK_SIZE])
      (fun i h1 h2 => absurd h2 (by omega))
      (fun i h1 h2 => by interval_cases i; decide)
      (fun _ => by decide)]
    rfl
  rw [read_fragment_lt fsC2E 0 3 (fun _ => 0) 1 (some 3) true
    (by decide) (by decide) (by decide) hs (by decide)]
  rfl

theorem readC2b_4 : ouichefs_read_fragment fsC2E 0 4 (fun _ => 0) =
    ⟨0, fun _ => 0, 0, 4⟩ := by
  have hs : scanRun
      (fsC2E.disk (get_block_number (fsC2E.index (4 / OUICHEFS_BLOCK_SIZE))))
      (4 % OUICHEFS_BLOCK_SIZE) = ⟨0, none, false⟩ := by
    rw [show fsC2E.disk (get_block_number (fsC2E.index (4 / OUICHEFS_BLOCK_SIZE))) =
        bufC2 from rfl, show 4 % OUICHEFS_BLOCK_SIZE = 4 from rfl]
    exact scanRun_zeros bufC2 4 (fun i h1 _ => bufC2_big i h1)
  rw [read_fragment_lt fsC2E 0 4 (fun _ => 0) 0 none false
    (by decide) (by decide) (by decide) hs (by decide)]
  rfl

theorem readAll_C2_before : readAll fsC2E = (outB2, 4) := by
  unfold readAll
  rw [show (10 : Nat) = 9 + 1 from rfl,
    readStream_step fsC2E 9 0 0 (fun _ => 0) 0 _ readC2b_1 (by decide)]
  show readStream fsC2E 9 0 1
    (copyRange (fun _ => 0) 0 (copyRange (fun _ => 0) 0 bufC2 0 1) 0 1) 1 = (outB2, 4)
  rw [show (9 : Nat) = 8 + 1 from rfl,
    readStream_step fsC2E 8 0 1
      (copyRange (fun _ => 0) 0 (copyRange (fun _ => 0) 0 bufC2 0 1) 0 1) 1 _ readC2b_2
      (by decide)]
  show readStream fsC2E 8 0 3
    (copyRange (copyRange (fun _ => 0) 0 (copyRange (fun _ => 0) 0 bufC2 0 1) 0 1)
      1 (copyRange (fun _ => 0) 0 bufC2 2 2) 0 2) 3 = (outB2, 4)
  rw [show (8 : Nat) = 7 + 1 from rfl,
    readStream_step fsC2E 7 0 3
      (copyRange (copyRange (fun _ => 0) 0 (copyRange (fun _ => 0) 0 bufC2 0 1) 0 1)
        1 (copyRange (fun _ => 0) 0 bufC2 2 2) 0 2) 3 _ readC2b_3 (by decide)]
  show readStream fsC2E 7 0 4 outB2 4 = (outB2, 4)
  rw [show (7 : Nat) = 6 + 1 from rfl,
    readStream_stop fsC2E 6 0 4 outB2 4 _ readC2b_4 (by decide)]

theorem readC2a_1 : ouichefs_read_fragment fsC2dE 0 0 (fun _ => 0) =
    ⟨2, copyRange (fun _ => 0) 0 blkC2d 0 2, 0, 2⟩ := by
  have hs : scanRun
      (fsC2dE.disk (get_block_number (fsC2dE.index (0 / OUICHEFS_BLOCK_SIZE))))
      (0 % OUICHEFS_BLOCK_SIZE) = ⟨2, some 0, true⟩ := by
    rw [show fsC2dE.disk (get_block_number (fsC2dE.index (0 / OUICHEFS_BLOCK_SIZE))) =
        blkC2d from rfl, show 0 % OUICHEFS_BLOCK_SIZE = 0 from rfl]
    rw [scanRun_eq blkC2d 0 0 2 (Nat.zero_le _) (by omega)
      (by norm_num [OUICHEFS_BLOCK_SIZE])
      (fun i h1 h2 => absurd h2 (by omega))
      (fun i h1 h2 => by interval_cases i <;> decide)
      (fun _ => by decide)]
    rfl
  rw [read_fragment_lt fsC2dE 0 0 (fun _ => 0) 2 (some 0) true
    (by decide) (by decide) (by decide) hs (by decide)]
  rfl

theorem readC2a_2 : ouichefs_read_fragment fsC2dE 0 2 (fun _ => 0) =
    ⟨0, fun _ => 0, 0, 2⟩ := by
  have hs : scanRun
      (fsC2dE.disk (get_block_number (fsC2dE.index (2 / OUICHEFS_BLOCK_SIZE))))
      (2 % OUICHEFS_BLOCK_SIZE) = ⟨0, none, false⟩ := by
    rw [show fsC2dE.disk (get_block_number (fsC2dE.index (2 / OUICHEFS_BLOCK_SIZE))) =
        blkC2d from rfl, show 2 % OUICHEFS_BLOCK_SIZE = 2 from rfl]
    exact scanRun_zeros blkC2d 2 (fun i h1 _ => by
      unfold blkC2d
      rw [if_neg (by omega), if_neg (by omega)])
  rw [read_fragment_lt fsC2dE 0 2 (fun _ => 0) 0 none false
    (by decide) (by decide) (by decide) hs (by decide)]
  rfl

theorem readAll_C2_after : readAll fsC2dE = (outA2, 2) := by
  unfold readAll
  rw [show (10 : Nat) = 9 + 1 from rfl,
    readStream_step fsC2dE 9 0 0 (fun _ => 0) 0 _ readC2a_1 (by decide)]
  show readStream fsC2dE 9 0 2 outA2 2 = (outA2, 2)
  rw [show (9 : Nat) = 8 + 1 from rfl,
    readStream_stop fsC2dE 8 0 2 outA2 2 _ readC2a_2 (by decide)]

/-- C2: Defragmentation is NOT content-preserving (code bug).  Writing the
four bytes 97 0 98 99 to the empty file gives fsC2E; the read-back stream
before defragmentation has 4 bytes 97 98 99 99; the defragmentation ioctl
returns 0 and yields fsC2dE, whose logical size is unchanged but whose
read-back stream has only 2 bytes 97 98: byte 2 of the stream changed from
99 to 0 — apply_contigue's overlapping memcpy/memset pass destroyed the
byte 99 that followed the interior zero, refuting the claim that
defragment leaves read(0, file_size) byte-identical to before. -/
theorem defrag_content_loss :
    ouichefs_write_fragment emptyFS bufC2 4 0 false = ⟨4, 4, fsC2E⟩ ∧
    (readAll fsC2E).2 = 4 ∧
    (readAll fsC2E).1 0 = 97 ∧ (readAll fsC2E).1 1 = 98 ∧
    (readAll fsC2E).1 2 = 99 ∧ (readAll fsC2E).1 3 = 99 ∧
    ouichefs_ioctl_defragmentation fsC2E = (0, fsC2dE) ∧
    fsC2dE.i_size = fsC2E.i_size ∧
    (readAll fsC2dE).2 = 2 ∧
    (readAll fsC2dE).1 0 = 97 ∧ (readAll fsC2dE).1 1 = 98 ∧
    (readAll fsC2dE).1 2 = 0 ∧
    ¬ ((readAll fsC2dE).2 = (readAll fsC2E).2 ∧
       ∀ k, k < (readAll fsC2E).2 → (readAll fsC2dE).1 k = (readAll fsC2E).1 k) := by
  refine ⟨writeC2_eq, ?_, ?_, ?_, ?_, ?_, defragC2_eq, rfl, ?_, ?_, ?_, ?_, ?_⟩
  · rw [readAll_C2_before]
  · rw [readAll_C2_before]; rfl
  · rw [readAll_C2_before]; rfl
  · rw [readAll_C2_before]; rfl
  · rw [readAll_C2_before]; rfl
  · rw [readAll_C2_after]
  · rw [readAll_C2_after]; rfl
  · rw [readAll_C2_after]; rfl
  · rw [readAll_C2_after]; rfl
  · rw [readAll_C2_before, readAll_C2_after]
    intro h
    have h2 := h.2 2 (by norm_num)
    rw [show ((outA2, 2).1 2 : Nat) = 0 from rfl,
      show ((outB2, 4).1 2 : Nat) = 99 from rfl] at h2
    omega
